import Mathlib

/-! # metalcloud-cli: instance commands

A shallow embedding of `cmd_instance.go` (the `instance power_control` and
`instance credentials` commands) together with the properties of these two
commands that the design document states.

Conventions of the embedding

* A Go `error` is an `Option GoError`; `none` is `nil`.
* A Go pointer that may be `nil` (`*SSH`, `*RDP`, ...) is an `Option`.
* A remote read `(*T, error)` is an `Except GoError T`.
* Every call the command makes to a collaborator is recorded, in order, in the
  `calls` field of the command's `Run`.
* Functions of the repository that `cmd_instance.go` calls but does not define
  (`getIntParamOk`, `confirmCommand`, `renderTransposedTable`, ...) are fields
  of `Helpers`, so every statement about the commands holds for any
  implementation of them.
* The records of the SDK (`Instance`, `InstanceArray`, `SSH`, ...) have the
  fields that the commands read, with the types under which the commands use
  them.
* The `json` encoding of the renderer, which is not in `cmd_instance.go`, is
  modelled from the design document (`renderTableJSON`), and read back by a
  parser of JSON arrays of objects (`parseJSONTable`). Floating-point values
  are left out of the embedding.
-/

namespace MetalCloud

/-! ## Data model -/

/-- A Go error value, identified by its message. -/
structure GoError where
  Error : String
deriving DecidableEq, Repr

/-- The result of `fmt.Errorf` on a format without verbs. -/
def Errorf (msg : String) : GoError := ⟨msg⟩

/-- Modelled from the spec: the declaration of the field types is not in
`cmd_instance.go`, which uses `TypeInt` and `TypeString`; the design document
lists integer, string, float and boolean. -/
inductive FieldType where
  | TypeInt
  | TypeString
  | TypeFloat
  | TypeBool
deriving DecidableEq, Repr

open FieldType

/-- One output column (or row label, in a transposed table). -/
structure SchemaField where
  FieldName : String
  FieldType : FieldType
  FieldSize : Nat
deriving DecidableEq, Repr

/-- The `interface{}` values of a data row: the instance commands put integers
and strings in their rows, the schema types also allow booleans. -/
inductive Value where
  | int (i : Int)
  | str (s : String)
  | bool (b : Bool)
deriving DecidableEq, Repr

structure IP where
  IPHumanReadable : String
deriving DecidableEq, Repr

structure SSH where
  Username : String
  InitialPassword : String
  Port : Int
deriving DecidableEq, Repr

structure RDP where
  Username : String
  InitialPassword : String
  Port : Int
deriving DecidableEq, Repr

structure ISCSIInitiator where
  InitiatorIQN : String
  Username : String
  Password : String
deriving DecidableEq, Repr

structure SharedDrive where
  StorageIPAddress : String
  StoragePort : Int
  TargetIQN : String
  LunID : String
deriving DecidableEq, Repr

/-- Modelled from the spec: the declaration of the credentials object is not
in `cmd_instance.go`. The fields are those the command reads. The shared
drives are a sequence: the design document numbers them from 0 and the command
formats the key of its `range` loop with `%d`. `SharedDrives = none` is the
`nil` collection. -/
structure InstanceCredentials where
  SSH : Option SSH
  RDP : Option RDP
  ISCSI : Option ISCSIInitiator
  SharedDrives : Option (List SharedDrive)
  IPAddressesPublic : List IP
  IPAddressesPrivate : List IP
deriving DecidableEq, Repr

structure Instance where
  InstanceID : Int
  InstanceLabel : String
  InstanceSubdomainPermanent : String
  InstanceArrayID : Int
  InstanceCredentials : InstanceCredentials
deriving DecidableEq, Repr

structure InstanceArray where
  InstanceArrayID : Int
  InstanceArrayLabel : String
  InfrastructureID : Int
deriving DecidableEq, Repr

structure Infrastructure where
  InfrastructureID : Int
  InfrastructureLabel : String
deriving DecidableEq, Repr

/-- The part of `interfaces.MetalCloudClient` that the instance commands use. -/
structure MetalCloudClient where
  InstanceGet : Int → Except GoError Instance
  InstanceArrayGet : Int → Except GoError InstanceArray
  InfrastructureGet : Int → Except GoError Infrastructure
  InstanceServerPowerSet : Int → String → Option GoError

/-- A value of the argument map of a command (`map[string]interface{}`): the
flag pointers that `InitFunc` stores, or nothing when the key is not bound. -/
inductive Argument where
  | unbound
  | int (v : Int)
  | str (v : String)
  | bool (v : Bool)
deriving DecidableEq, Repr

/-- The part of `Command` that `ExecuteFunc` reads. -/
structure Command where
  Arguments : String → Argument

/-- The functions and process state that `cmd_instance.go` uses and that are
defined elsewhere in the repository. -/
structure Helpers where
  getIntParamOk : Argument → Int × Bool
  getStringParamOk : Argument → String × Bool
  getStringParam : Argument → String
  confirmCommand : Command → (Unit → String) → Bool × Option GoError
  renderTransposedTable :
    String → String → String → List (List Value) → List SchemaField → String × Option GoError
  osArgs0 : String

/-- A call made by a command to one of its collaborators. -/
inductive Call where
  | InstanceGet (instanceID : Int)
  | InstanceArrayGet (instanceArrayID : Int)
  | InfrastructureGet (infrastructureID : Int)
  | InstanceServerPowerSet (instanceID : Int) (operation : String)
  | confirmCommand
  | renderTransposedTable (title topRow format : String) (data : List (List Value))
      (schema : List SchemaField)
deriving DecidableEq, Repr

/-- Whether a call is the mutating remote call. -/
def Call.isPowerSet : Call → Bool
  | .InstanceServerPowerSet _ _ => true
  | _ => false

/-- What a command hands back, `(string, error)`, and the calls it made. -/
structure Run where
  output : String
  err : Option GoError
  calls : List Call
deriving DecidableEq, Repr

/-! ## Library functions -/

/-- Go `strings.HasSuffix`. -/
def HasSuffix (s suffix : String) : Bool :=
  suffix.data.isSuffixOf s.data

/-- Go `strings.HasPrefix`. -/
def HasPrefix (s pre : String) : Bool :=
  pre.data.isPrefixOf s.data

/-- Go `strings.Join`. -/
def Join (elems : List String) (sep : String) : String :=
  sep.intercalate elems

/-- The verb `%d` of `fmt.Sprintf` on an `int`. -/
def fmtInt (i : Int) : String := toString i

/-- The verb `%d` of `fmt.Sprintf` on a slice index. -/
def fmtIdx (k : Nat) : String := toString k

/-! ## `instancePowerControlCmd` -/

/-- The closure passed to `confirmCommand` by `instancePowerControlCmd`
(`cmd_instance.go`, lines 76-107). -/
def promptBuilder (h : Helpers) (operation : String) (inst : Instance) (ia : InstanceArray)
    (infra : Infrastructure) : Unit → String := fun _ =>
  let op :=
    match operation with
    | "on" => "Turning on"
    | "off" => "Turning off (hard)"
    | "reset" => "Rebooting"
    | "sort" => "Shutting down"
    | _ => ""
  let confirmationMessage :=
    op ++ " instance " ++ inst.InstanceLabel ++ " (" ++ fmtInt inst.InstanceID ++
      ") of instance array " ++ ia.InstanceArrayLabel ++ " (#" ++ fmtInt ia.InstanceArrayID ++
      ") infrastructure " ++ infra.InfrastructureLabel ++ " (#" ++ fmtInt infra.InfrastructureID ++
      ").  Are you sure? Type \"yes\" to continue:"
  if HasSuffix h.osArgs0 ".test" then "" else confirmationMessage

/-- The command `instance power_control` (`cmd_instance.go`, lines 50-118). -/
def instancePowerControlCmd (h : Helpers) (c : Command) (client : MetalCloudClient) : Run :=
  match h.getIntParamOk (c.Arguments "instance_id") with
  | (_, false) => ⟨"", some (Errorf "-id is required (drive id)"), []⟩
  | (instanceID, true) =>
    match h.getStringParamOk (c.Arguments "operation") with
    | (_, false) =>
      ⟨"", some (Errorf "-operation is required (one of: on, off, reset, soft)"), []⟩
    | (operation, true) =>
      match client.InstanceGet instanceID with
      | .error err => ⟨"", some err, [.InstanceGet instanceID]⟩
      | .ok inst =>
        match client.InstanceArrayGet inst.InstanceArrayID with
        | .error err =>
          ⟨"", some err, [.InstanceGet instanceID, .InstanceArrayGet inst.InstanceArrayID]⟩
        | .ok ia =>
          match client.InfrastructureGet ia.InfrastructureID with
          | .error err =>
            ⟨"", some err, [.InstanceGet instanceID, .InstanceArrayGet inst.InstanceArrayID,
              .InfrastructureGet ia.InfrastructureID]⟩
          | .ok infra =>
            match h.confirmCommand c (promptBuilder h operation inst ia infra) with
            | (_, some err) =>
              ⟨"", some err, [.InstanceGet instanceID, .InstanceArrayGet inst.InstanceArrayID,
                .InfrastructureGet ia.InfrastructureID, .confirmCommand]⟩
            | (true, none) =>
              ⟨"", client.InstanceServerPowerSet instanceID operation,
                [.InstanceGet instanceID, .InstanceArrayGet inst.InstanceArrayID,
                  .InfrastructureGet ia.InfrastructureID, .confirmCommand,
                  .InstanceServerPowerSet instanceID operation]⟩
            | (false, none) =>
              ⟨"", none, [.InstanceGet instanceID, .InstanceArrayGet inst.InstanceArrayID,
                .InfrastructureGet ia.InfrastructureID, .confirmCommand]⟩

/-! ## `instanceCredentialsCmd` -/

/-- The function `getIPsAsStringArray` (`cmd_instance.go`, lines 322-328). -/
def getIPsAsStringArray (ips : List IP) : List String :=
  ips.foldl (fun sList ip => sList ++ [ip.IPHumanReadable]) []

/-- The body of the loop over the shared drives (lines 278-310): the fields
and the values appended for the drive `sd` at index `k`. -/
def sharedDriveStep (k : Nat) (sd : SharedDrive)
    (acc : List SchemaField × List Value) : List SchemaField × List Value :=
  let newFields : List SchemaField := [
    ⟨"SHARED_DRIVE_" ++ fmtIdx k ++ "_TARGET_IP_ADDRESS", TypeString, 5⟩,
    ⟨"SHARED_DRIVE_" ++ fmtIdx k ++ "_TARGET_PORT", TypeInt, 5⟩,
    ⟨"SHARED_DRIVE_" ++ fmtIdx k ++ "_TARGET_IQN", TypeString, 5⟩,
    ⟨"SHARED_DRIVE_" ++ fmtIdx k ++ "_LUN_ID", TypeString, 5⟩]
  let newData : List Value := [
    .str sd.StorageIPAddress,
    .int sd.StoragePort,
    .str sd.TargetIQN,
    .str sd.LunID]
  (acc.1 ++ newFields, acc.2 ++ newData)

/-- The loop `for k, sd := range v` over the shared drives, from index `k`. -/
def sharedDrivesLoop : Nat → List SharedDrive → List SchemaField × List Value →
    List SchemaField × List Value
  | _, [], acc => acc
  | k, sd :: rest, acc => sharedDrivesLoop (k + 1) rest (sharedDriveStep k sd acc)

/-- Lines 142-311 of `instanceCredentialsCmd`: the schema and the data row
built from the three objects that were read. -/
def credentialsTable (inst : Instance) (ia : InstanceArray) (infra : Infrastructure) :
    List SchemaField × List Value :=
  let schema : List SchemaField := [
    ⟨"ID", TypeInt, 6⟩,
    ⟨"SUBDOMAIN", TypeString, 10⟩,
    ⟨"INSTANCE_ARRAY", TypeString, 10⟩,
    ⟨"INFRASTRUCTURE", TypeString, 10⟩,
    ⟨"PUBLIC_IPs", TypeString, 6⟩,
    ⟨"PRIVATE_IPs", TypeString, 6⟩]
  let publicIPS := getIPsAsStringArray inst.InstanceCredentials.IPAddressesPublic
  let privateIPS := getIPsAsStringArray inst.InstanceCredentials.IPAddressesPrivate
  let dataRow : List Value := [
    .int inst.InstanceID,
    .str inst.InstanceSubdomainPermanent,
    .str ia.InstanceArrayLabel,
    .str infra.InfrastructureLabel,
    .str (Join publicIPS " "),
    .str (Join privateIPS " ")]
  let acc : List SchemaField × List Value := (schema, dataRow)
  let acc :=
    match inst.InstanceCredentials.SSH with
    | some v =>
      (acc.1 ++ [⟨"SSH_USERNAME", TypeString, 10⟩, ⟨"SSH_PASSWORD", TypeString, 10⟩,
          ⟨"SSH_PORT", TypeInt, 10⟩],
        acc.2 ++ [.str v.Username, .str v.InitialPassword, .int v.Port])
    | none => acc
  let acc :=
    match inst.InstanceCredentials.RDP with
    | some v =>
      (acc.1 ++ [⟨"RDP_USERNAME", TypeString, 5⟩, ⟨"RDP_PASSWORD", TypeString, 5⟩,
          ⟨"RDP_PORT", TypeInt, 5⟩],
        acc.2 ++ [.str v.Username, .str v.InitialPassword, .int v.Port])
    | none => acc
  let acc :=
    match inst.InstanceCredentials.ISCSI with
    | some v =>
      (acc.1 ++ [⟨"INITIATOR_IQN", TypeString, 5⟩, ⟨"ISCSI_USERNAME", TypeString, 5⟩,
          ⟨"ISCSI_PASSWORD", TypeString, 5⟩],
        acc.2 ++ [.str v.InitiatorIQN, .str v.Username, .str v.Password])
    | none => acc
  match inst.InstanceCredentials.SharedDrives with
  | some v => sharedDrivesLoop 0 v acc
  | none => acc

/-- The command `instance credentials` (`cmd_instance.go`, lines 120-320). -/
def instanceCredentialsCmd (h : Helpers) (c : Command) (client : MetalCloudClient) : Run :=
  match h.getIntParamOk (c.Arguments "instance_id") with
  | (_, false) => ⟨"", some (Errorf "-id is required (instance id)"), []⟩
  | (instanceID, true) =>
    match client.InstanceGet instanceID with
    | .error err => ⟨"", some err, [.InstanceGet instanceID]⟩
    | .ok inst =>
      match client.InstanceArrayGet inst.InstanceArrayID with
      | .error err =>
        ⟨"", some err, [.InstanceGet instanceID, .InstanceArrayGet inst.InstanceArrayID]⟩
      | .ok ia =>
        match client.InfrastructureGet ia.InfrastructureID with
        | .error err =>
          ⟨"", some err, [.InstanceGet instanceID, .InstanceArrayGet inst.InstanceArrayID,
            .InfrastructureGet ia.InfrastructureID]⟩
        | .ok infra =>
          let (schema, dataRow) := credentialsTable inst ia infra
          let data := [dataRow]
          let topRow := "Instance " ++ inst.InstanceSubdomainPermanent
          let format := h.getStringParam (c.Arguments "format")
          let ret := h.renderTransposedTable "Records" topRow format data schema
          ⟨ret.1, ret.2, [.InstanceGet instanceID, .InstanceArrayGet inst.InstanceArrayID,
            .InfrastructureGet ia.InfrastructureID,
            .renderTransposedTable "Records" topRow format data schema]⟩

/-- The shared drives of an instance (none when the collection is `nil`). -/
def sharedDrives (inst : Instance) : List SharedDrive :=
  inst.InstanceCredentials.SharedDrives.getD []

/-- One when the credential sub-object is present, zero when it is `nil`. -/
def present {α : Type} (o : Option α) : Nat := if o.isSome then 1 else 0

/-- The arguments of the last call of a run when that call is
`renderTransposedTable`: the rows and the schema handed to the renderer. -/
def Run.rendered (r : Run) : Option (List (List Value) × List SchemaField) :=
  match r.calls.getLast? with
  | some (.renderTransposedTable _ _ _ data schema) => some (data, schema)
  | _ => none

/-! ## The `json` encoding of the tabular renderer -/

/-- A JSON value that is a number without fraction, a string or a boolean. -/
inductive JsonScalar where
  | num (i : Int)
  | str (s : String)
  | bool (b : Bool)
deriving DecidableEq, Repr

/-- The JSON value of a row value: an integer is a number, a string is a
string, a boolean is a boolean. -/
def Value.toJson : Value → JsonScalar
  | .int i => .num i
  | .str s => .str s
  | .bool b => .bool b

/-- Whether a row value is of the declared type of its field. No value of
this embedding is of type `TypeFloat`: floating-point values are left out. -/
def Value.hasType : Value → FieldType → Bool
  | .int _, TypeInt => true
  | .str _, TypeString => true
  | .bool _, TypeBool => true
  | _, _ => false

/-- The characters that stand for `c` inside a JSON string: the quote and the
backslash are escaped with a backslash, a control character is written with
the escape `u` and four hexadecimal digits, anything else stands for itself. -/
def escapeChar (c : Char) : List Char :=
  if c = '"' then ['\\', '"']
  else if c = '\\' then ['\\', '\\']
  else if c.toNat < 32 then
    ['\\', 'u', '0', '0', Nat.digitChar (c.toNat / 16), Nat.digitChar (c.toNat % 16)]
  else [c]

/-- A JSON string literal. -/
def quoteJSON (s : String) : List Char :=
  '"' :: (s.data.flatMap escapeChar ++ ['"'])

/-- The JSON text of a value under the declared type of its field: an integer
in decimal for `TypeInt`, a string literal for `TypeString`, `true` or `false`
for `TypeBool`. A value that is not of the declared type is a programming
error: there is no text. -/
def renderScalar : FieldType → Value → Option (List Char)
  | TypeInt, .int i => some (toString i).data
  | TypeString, .str s => some (quoteJSON s)
  | TypeBool, .bool b => some (if b then ['t', 'r', 'u', 'e'] else ['f', 'a', 'l', 's', 'e'])
  | _, _ => none

/-- One member of a JSON object: the field name, a colon, the value. -/
def renderMember (f : SchemaField) (v : Value) : Option (List Char) :=
  match renderScalar f.FieldType v with
  | some text => some (quoteJSON f.FieldName ++ ':' :: text)
  | none => none

/-- The members of the object of a row, one per schema field, in schema order.
A row that has not the arity of the schema is a programming error: there are
no members. -/
def renderMembers : List SchemaField → List Value → Option (List (List Char))
  | [], [] => some []
  | f :: fs, v :: vs =>
    match renderMember f v, renderMembers fs vs with
    | some m, some ms => some (m :: ms)
    | _, _ => none
  | _, _ => none

/-- The texts of `parts`, separated by commas. -/
def joinComma : List (List Char) → List Char
  | [] => []
  | [x] => x
  | x :: y :: rest => x ++ ',' :: joinComma (y :: rest)

/-- One JSON object for a row. -/
def renderObject (schema : List SchemaField) (row : List Value) : Option (List Char) :=
  match renderMembers schema row with
  | some members => some ('\x7b' :: (joinComma members ++ ['\x7d']))
  | none => none

/-- The objects of the rows, in row order. -/
def renderObjects (schema : List SchemaField) : List (List Value) → Option (List (List Char))
  | [] => some []
  | row :: rows =>
    match renderObject schema row, renderObjects schema rows with
    | some o, some os => some (o :: os)
    | _, _ => none

/-- Modelled from the spec: the renderer (`renderTable`,
`renderTransposedTable`) is not in `cmd_instance.go`; this is its `json`
encoding as section 4.3 of the design document words it: an array of objects,
one per row, each object's keys being the schema field names and its values
being JSON-typed per the schema (integers as numbers, strings as strings).
Rows whose arity or types do not match the schema are the programming error of
section 3, and have no output. -/
def renderTableJSON (data : List (List Value)) (schema : List SchemaField) : Option String :=
  match renderObjects schema data with
  | some objects => some ⟨'[' :: (joinComma objects ++ [']'])⟩
  | none => none

/-! ## Reading JSON back -/

/-- JSON whitespace. -/
def isWs (c : Char) : Bool :=
  c = ' ' || c = '\n' || c = '\r' || c = '\t'

/-- Drop leading whitespace. -/
def skipWs : List Char → List Char
  | [] => []
  | c :: rest => if isWs c then skipWs rest else c :: rest

/-- The input after the character `c`, which must come first. -/
def expect (c : Char) : List Char → Option (List Char)
  | [] => none
  | d :: rest => if d = c then some rest else none

/-- The value of a hexadecimal digit. -/
def hexVal (c : Char) : Option Nat :=
  if 48 ≤ c.toNat ∧ c.toNat ≤ 57 then some (c.toNat - 48)
  else if 97 ≤ c.toNat ∧ c.toNat ≤ 102 then some (c.toNat - 87)
  else if 65 ≤ c.toNat ∧ c.toNat ≤ 70 then some (c.toNat - 55)
  else none

/-- The character that the escape `u` with the four hexadecimal digits `a b c d`
stands for; a surrogate half is refused. -/
def parseHex4 (a b c d : Char) : Option Char :=
  match hexVal a, hexVal b, hexVal c, hexVal d with
  | some x, some y, some z, some w =>
    let v := ((x * 16 + y) * 16 + z) * 16 + w
    if 0xD800 ≤ v ∧ v < 0xE000 then none else some (Char.ofNat v)
  | _, _, _, _ => none

/-- The character that a one-letter escape stands for. -/
def unescape (e : Char) : Option Char :=
  if e = '"' then some '"'
  else if e = '\\' then some '\\'
  else if e = '/' then some '/'
  else if e = 'b' then some (Char.ofNat 8)
  else if e = 'f' then some (Char.ofNat 12)
  else if e = 'n' then some '\n'
  else if e = 'r' then some '\r'
  else if e = 't' then some '\t'
  else none

/-- The characters of a string literal whose opening quote was read, and the
input after its closing quote. -/
def parseStringBody : List Char → Option (List Char × List Char)
  | [] => none
  | c :: rest =>
    if c = '"' then some ([], rest)
    else if c = '\\' then
      match rest with
      | [] => none
      | e :: rest2 =>
        if e = 'u' then
          match rest2 with
          | a :: b :: c2 :: d :: rest3 =>
            match parseHex4 a b c2 d, parseStringBody rest3 with
            | some ch, some (s, r) => some (ch :: s, r)
            | _, _ => none
          | _ => none
        else
          match unescape e, parseStringBody rest2 with
          | some ch, some (s, r) => some (ch :: s, r)
          | _, _ => none
    else if c.toNat < 32 then none
    else
      match parseStringBody rest with
      | some (s, r) => some (c :: s, r)
      | none => none

/-- A string literal at the head of the input. -/
def parseString (l : List Char) : Option (String × List Char) :=
  match expect '"' l with
  | none => none
  | some body =>
    match parseStringBody body with
    | some (s, r) => some (⟨s⟩, r)
    | none => none

/-- The value of a decimal digit. -/
def digitVal (c : Char) : Option Nat :=
  if 48 ≤ c.toNat ∧ c.toNat ≤ 57 then some (c.toNat - 48) else none

/-- Read decimal digits, as many as there are, onto the number `acc`. -/
def parseDigits (acc : Nat) : List Char → Nat × List Char
  | [] => (acc, [])
  | c :: rest =>
    match digitVal c with
    | some d => parseDigits (acc * 10 + d) rest
    | none => (acc, c :: rest)

/-- A natural number as JSON writes it: the digit `0` alone, or a digit other
than `0` and the digits that follow it. A `0` followed by a digit is refused:
JSON has no leading zeros. -/
def parseNat : List Char → Option (Nat × List Char)
  | [] => none
  | c :: rest =>
    match digitVal c with
    | none => none
    | some d =>
      if d = 0 then
        match rest with
        | [] => some (0, [])
        | c2 :: rest2 => if (digitVal c2).isSome then none else some (0, c2 :: rest2)
      else some (parseDigits d rest)

/-- An integer in decimal, with `-` before a negative one. -/
def parseInt : List Char → Option (Int × List Char)
  | [] => none
  | c :: rest =>
    if c = '-' then
      match parseNat rest with
      | some (n, r) => some (-(n : Int), r)
      | none => none
    else
      match parseNat (c :: rest) with
      | some (n, r) => some ((n : Int), r)
      | none => none

/-- The input after the characters `word`, which must come first. -/
def expectWord : List Char → List Char → Option (List Char)
  | [], l => some l
  | _ :: _, [] => none
  | w :: ws, c :: rest => if c = w then expectWord ws rest else none

/-- A string, the literal `true` or `false`, or an integer at the head of the
input. -/
def parseScalar : List Char → Option (JsonScalar × List Char)
  | [] => none
  | c :: rest =>
    if c = '"' then
      match parseString (c :: rest) with
      | some (s, r) => some (.str s, r)
      | none => none
    else if c = 't' then
      match expectWord ['t', 'r', 'u', 'e'] (c :: rest) with
      | some r => some (.bool true, r)
      | none => none
    else if c = 'f' then
      match expectWord ['f', 'a', 'l', 's', 'e'] (c :: rest) with
      | some r => some (.bool false, r)
      | none => none
    else
      match parseInt (c :: rest) with
      | some (i, r) => some (.num i, r)
      | none => none

/-- A member `"key" : scalar` at the head of the input. -/
def parseMember (l : List Char) : Option ((String × JsonScalar) × List Char) :=
  match parseString l with
  | none => none
  | some (k, l1) =>
    match expect ':' (skipWs l1) with
    | none => none
    | some l2 =>
      match parseScalar (skipWs l2) with
      | some (v, l3) => some ((k, v), l3)
      | none => none

/-- What follows a member of an object: the end of the object, or a comma and
the members that remain. -/
def parseMembersTail : Nat → List Char → Option (List (String × JsonScalar) × List Char)
  | 0, _ => none
  | fuel + 1, l =>
    match skipWs l with
    | [] => none
    | c :: rest =>
      if c = '\x7d' then some ([], rest)
      else if c = ',' then
        match parseMember (skipWs rest) with
        | none => none
        | some (m, l1) =>
          match parseMembersTail fuel l1 with
          | some (ms, l2) => some (m :: ms, l2)
          | none => none
      else none

/-- How many members an object can hold whose text is `l`, and how many
objects an array: the loops of the parser run on this budget. -/
def budget (l : List Char) : Nat := l.length

/-- An object of scalars at the head of the input, as its members in order. -/
def parseObject (l : List Char) : Option (List (String × JsonScalar) × List Char) :=
  match expect '\x7b' l with
  | none => none
  | some l1 =>
    match skipWs l1 with
    | [] => none
    | c :: rest =>
      if c = '\x7d' then some ([], rest)
      else
        match parseMember (c :: rest) with
        | none => none
        | some (m, l2) =>
          match parseMembersTail (budget l2) l2 with
          | some (ms, l3) => some (m :: ms, l3)
          | none => none

/-- What follows an element of the array: the end of the array, or a comma and
the objects that remain. -/
def parseObjectsTail : Nat → List Char →
    Option (List (List (String × JsonScalar)) × List Char)
  | 0, _ => none
  | fuel + 1, l =>
    match skipWs l with
    | [] => none
    | c :: rest =>
      if c = ']' then some ([], rest)
      else if c = ',' then
        match parseObject (skipWs rest) with
        | none => none
        | some (o, l1) =>
          match parseObjectsTail fuel l1 with
          | some (os, l2) => some (o :: os, l2)
          | none => none
      else none

/-- An array of objects of scalars at the head of the input. -/
def parseArray (l : List Char) : Option (List (List (String × JsonScalar)) × List Char) :=
  match expect '[' l with
  | none => none
  | some l1 =>
    match skipWs l1 with
    | [] => none
    | c :: rest =>
      if c = ']' then some ([], rest)
      else
        match parseObject (c :: rest) with
        | none => none
        | some (o, l2) =>
          match parseObjectsTail (budget l2) l2 with
          | some (os, l3) => some (o :: os, l3)
          | none => none

/-- Parse a text as a JSON array of objects whose values are integers, strings
or booleans: the objects in order, each as its members in order. Nothing but
whitespace may surround the array. Every text that is read is JSON; JSON with
fractions, exponents, `null` or nested values is not read. -/
def parseJSONTable (s : String) : Option (List (List (String × JsonScalar))) :=
  match parseArray (skipWs s.data) with
  | some (objects, rest) => if skipWs rest = [] then some objects else none
  | none => none

/-- The part of `metalcloud.Variable` that the variable list shows. -/
structure Variable where
  VariableID : Int
  VariableName : String
deriving DecidableEq, Repr

/-- Modelled from the spec: `variablesListCmd` is exercised by
`cmd_variable_test.go` and defined elsewhere; this is its output for the
format `json` as the example scenario of section 8 of the design document has
it: the schema `[ID:int, NAME:string]` and one row per variable. -/
def variablesListJSON (list : List Variable) : Option String :=
  renderTableJSON (list.map fun v => [.int v.VariableID, .str v.VariableName])
    [⟨"ID", TypeInt, 6⟩, ⟨"NAME", TypeString, 20⟩]

/-! ## Test fixtures -/

/-- Modelled from the spec: `confirmCommand` is defined outside
`cmd_instance.go`; this is the confirmation gate of section 4.2 of the design
document, reading the line `stdin`. With `autoconfirm` set it proceeds without
building the prompt; an empty prompt proceeds; otherwise it proceeds when the
trimmed line is `yes`. -/
def specConfirmCommand (stdin : String) (c : Command) (f : Unit → String) :
    Bool × Option GoError :=
  if c.Arguments "autoconfirm" = .bool true then (true, none)
  else if f () = "" then (true, none)
  else
    let trimmed :=
      ((stdin.data.dropWhile Char.isWhitespace).reverse.dropWhile Char.isWhitespace).reverse
    (decide (trimmed = "yes".data), none)

/-- Helpers as the flag package leaves them: a bound flag is reported with
`ok`, an unbound one without. -/
def fixtureHelpers (stdin : String) : Helpers where
  getIntParamOk := fun a => match a with
    | .int v => (v, true)
    | _ => (0, false)
  getStringParamOk := fun a => match a with
    | .str v => (v, true)
    | _ => ("", false)
  getStringParam := fun a => match a with
    | .str v => v
    | _ => ""
  confirmCommand := specConfirmCommand stdin
  renderTransposedTable := fun _ _ _ _ _ => ("", none)
  osArgs0 := "metalcloud-cli"

/-- A remote client that knows instance 11, which it places in instance array
`arrayID`, the instance arrays 7 (of infrastructure 3) and 8 (of infrastructure
4), and the infrastructure 3; it answers anything else with an error. -/
def fixtureClient (creds : InstanceCredentials) (arrayID : Int) : MetalCloudClient where
  InstanceGet := fun id =>
    if id = 11 then .ok ⟨11, "web-1", "web-1.example.com", arrayID, creds⟩
    else .error ⟨"instance not found"⟩
  InstanceArrayGet := fun id =>
    if id = 7 then .ok ⟨7, "web", 3⟩
    else if id = 8 then .ok ⟨8, "db", 4⟩
    else .error ⟨"instance array not found"⟩
  InfrastructureGet := fun id =>
    if id = 3 then .ok ⟨3, "prod"⟩ else .error ⟨"infrastructure not found"⟩
  InstanceServerPowerSet := fun id _ =>
    if id = 11 then none else some ⟨"instance not found"⟩

/-- An instance without credentials of any kind. -/
def noCredentials : InstanceCredentials := ⟨none, none, none, none, [], []⟩

/-- The argument map of `instance power_control -id=<id> -operation=off`, with
or without `-autoconfirm`. -/
def fixturePowerCommand (id : Int) (autoconfirm : Bool) : Command where
  Arguments := fun name =>
    if name = "instance_id" then .int id
    else if name = "operation" then .str "off"
    else if name = "autoconfirm" then .bool autoconfirm
    else .unbound

/-- The argument map of `instance power_control -id=11`: no operation. -/
def fixtureNoOperation : Command where
  Arguments := fun name => if name = "instance_id" then .int 11 else .unbound

/-- An argument map in which no flag is bound. -/
def fixtureNoArguments : Command where
  Arguments := fun _ => .unbound

/-- The argument map of `instance credentials -id=11 -format=json`. -/
def fixtureCredentialsCommand : Command where
  Arguments := fun name =>
    if name = "instance_id" then .int 11
    else if name = "format" then .str "json"
    else .unbound

/-- Credentials with an SSH block only. -/
def sshOnly : InstanceCredentials :=
  ⟨some ⟨"root", "secret", 22⟩, none, none, none, [⟨"89.36.24.2"⟩], [⟨"10.0.0.2"⟩]⟩

/-- Credentials with an RDP block, an iSCSI initiator and two shared drives,
and no SSH block. -/
def twoDrives : InstanceCredentials :=
  ⟨none, some ⟨"Administrator", "secret", 3389⟩, some ⟨"iqn.2019-01.com.example:init", "u", "p"⟩,
    some [⟨"100.64.0.6", 3260, "iqn.2013-01.com.example:storage.a", "55"⟩,
      ⟨"100.64.0.7", 3261, "iqn.2013-01.com.example:storage.b", "56"⟩], [], []⟩

/-! ## Properties of `instancePowerControlCmd` -/

/-- C1: in `instancePowerControlCmd`, when the three remote reads succeed and
`confirmCommand` returns `(false, nil)`, the command makes the three reads,
consults `confirmCommand` and stops: `InstanceServerPowerSet` is not among its
calls, and it returns the empty output string with a nil error. -/
theorem powerControl_declined (h : Helpers) (c : Command) (client : MetalCloudClient)
    (instanceID : Int) (operation : String) (inst : Instance) (ia : InstanceArray)
    (infra : Infrastructure)
    (hid : h.getIntParamOk (c.Arguments "instance_id") = (instanceID, true))
    (hop : h.getStringParamOk (c.Arguments "operation") = (operation, true))
    (h1 : client.InstanceGet instanceID = .ok inst)
    (h2 : client.InstanceArrayGet inst.InstanceArrayID = .ok ia)
    (h3 : client.InfrastructureGet ia.InfrastructureID = .ok infra)
    (hconf : h.confirmCommand c (promptBuilder h operation inst ia infra) = (false, none)) :
    (∀ call ∈ (instancePowerControlCmd h c client).calls, call.isPowerSet = false) ∧
      (instancePowerControlCmd h c client).calls =
        [.InstanceGet instanceID, .InstanceArrayGet inst.InstanceArrayID,
          .InfrastructureGet ia.InfrastructureID, .confirmCommand] ∧
      (instancePowerControlCmd h c client).output = "" ∧
      (instancePowerControlCmd h c client).err = none := by
  simp [instancePowerControlCmd, hid, hop, h1, h2, h3, hconf, Call.isPowerSet]

/-- Witness of C1: the user answers `no` to the prompt for instance 11. -/
theorem powerControl_declined_witness :
    (∀ call ∈ (instancePowerControlCmd (fixtureHelpers "no\n") (fixturePowerCommand 11 false)
        (fixtureClient noCredentials 7)).calls, call.isPowerSet = false) ∧
      (instancePowerControlCmd (fixtureHelpers "no\n") (fixturePowerCommand 11 false)
        (fixtureClient noCredentials 7)).calls =
        [.InstanceGet 11, .InstanceArrayGet 7, .InfrastructureGet 3, .confirmCommand] ∧
      (instancePowerControlCmd (fixtureHelpers "no\n") (fixturePowerCommand 11 false)
        (fixtureClient noCredentials 7)).output = "" ∧
      (instancePowerControlCmd (fixtureHelpers "no\n") (fixturePowerCommand 11 false)
        (fixtureClient noCredentials 7)).err = none :=
  powerControl_declined (fixtureHelpers "no\n") (fixturePowerCommand 11 false)
    (fixtureClient noCredentials 7) 11 "off"
    ⟨11, "web-1", "web-1.example.com", 7, noCredentials⟩ ⟨7, "web", 3⟩ ⟨3, "prod"⟩
    (by decide) (by decide) rfl rfl rfl (by decide)

/-- C4: in `instancePowerControlCmd`, with both required arguments present,
the reads are made in the order `InstanceGet`, `InstanceArrayGet`,
`InfrastructureGet`, and the first one that fails ends the command: the output
is empty, the error is the one that read returned, and the calls made are the
reads up to the failing one and nothing else (no later read, no
`confirmCommand`, no `InstanceServerPowerSet`). -/
theorem powerControl_read_failure (h : Helpers) (c : Command) (client : MetalCloudClient)
    (instanceID : Int) (operation : String)
    (hid : h.getIntParamOk (c.Arguments "instance_id") = (instanceID, true))
    (hop : h.getStringParamOk (c.Arguments "operation") = (operation, true)) :
    (∀ e, client.InstanceGet instanceID = .error e →
        instancePowerControlCmd h c client = ⟨"", some e, [.InstanceGet instanceID]⟩) ∧
      (∀ inst e, client.InstanceGet instanceID = .ok inst →
        client.InstanceArrayGet inst.InstanceArrayID = .error e →
        instancePowerControlCmd h c client =
          ⟨"", some e, [.InstanceGet instanceID, .InstanceArrayGet inst.InstanceArrayID]⟩) ∧
      (∀ inst ia e, client.InstanceGet instanceID = .ok inst →
        client.InstanceArrayGet inst.InstanceArrayID = .ok ia →
        client.InfrastructureGet ia.InfrastructureID = .error e →
        instancePowerControlCmd h c client =
          ⟨"", some e, [.InstanceGet instanceID, .InstanceArrayGet inst.InstanceArrayID,
            .InfrastructureGet ia.InfrastructureID]⟩) := by
  refine ⟨?_, ?_, ?_⟩
  · intro e h1
    simp [instancePowerControlCmd, hid, hop, h1]
  · intro inst e h1 h2
    simp [instancePowerControlCmd, hid, hop, h1, h2]
  · intro inst ia e h1 h2 h3
    simp [instancePowerControlCmd, hid, hop, h1, h2, h3]

/-- Witness of C4: instance 11 is found, its instance array 8 is found, the
infrastructure 4 of that array is not: the command stops there with the error
of `InfrastructureGet`. -/
theorem powerControl_read_failure_witness :
    instancePowerControlCmd (fixtureHelpers "yes\n") (fixturePowerCommand 11 true)
        (fixtureClient noCredentials 8) =
      ⟨"", some ⟨"infrastructure not found"⟩,
        [.InstanceGet 11, .InstanceArrayGet 8, .InfrastructureGet 4]⟩ :=
  (powerControl_read_failure (fixtureHelpers "yes\n") (fixturePowerCommand 11 true)
    (fixtureClient noCredentials 8) 11 "off" (by decide) (by decide)).2.2
    ⟨11, "web-1", "web-1.example.com", 8, noCredentials⟩ ⟨8, "db", 4⟩
    ⟨"infrastructure not found"⟩ rfl rfl rfl

/-- C7: in `instancePowerControlCmd`, when the three remote reads succeed and
`confirmCommand` returns `(true, nil)`, `InstanceServerPowerSet` is invoked
exactly once, as the last call, with the instance id and the operation string
of the arguments, and the command returns the empty output string with the
error that this call returned. -/
theorem powerControl_confirmed (h : Helpers) (c : Command) (client : MetalCloudClient)
    (instanceID : Int) (operation : String) (inst : Instance) (ia : InstanceArray)
    (infra : Infrastructure)
    (hid : h.getIntParamOk (c.Arguments "instance_id") = (instanceID, true))
    (hop : h.getStringParamOk (c.Arguments "operation") = (operation, true))
    (h1 : client.InstanceGet instanceID = .ok inst)
    (h2 : client.InstanceArrayGet inst.InstanceArrayID = .ok ia)
    (h3 : client.InfrastructureGet ia.InfrastructureID = .ok infra)
    (hconf : h.confirmCommand c (promptBuilder h operation inst ia infra) = (true, none)) :
    (instancePowerControlCmd h c client).calls.filter Call.isPowerSet =
        [.InstanceServerPowerSet instanceID operation] ∧
      (instancePowerControlCmd h c client).calls =
        [.InstanceGet instanceID, .InstanceArrayGet inst.InstanceArrayID,
          .InfrastructureGet ia.InfrastructureID, .confirmCommand,
          .InstanceServerPowerSet instanceID operation] ∧
      (instancePowerControlCmd h c client).output = "" ∧
      (instancePowerControlCmd h c client).err =
        client.InstanceServerPowerSet instanceID operation := by
  simp [instancePowerControlCmd, hid, hop, h1, h2, h3, hconf, Call.isPowerSet]

/-- Witness of C7: `-autoconfirm` is set, so the confirmation gate of the
design document proceeds whatever the user would have typed. -/
theorem powerControl_confirmed_witness :
    (instancePowerControlCmd (fixtureHelpers "no\n") (fixturePowerCommand 11 true)
        (fixtureClient noCredentials 7)).calls.filter Call.isPowerSet =
        [.InstanceServerPowerSet 11 "off"] ∧
      (instancePowerControlCmd (fixtureHelpers "no\n") (fixturePowerCommand 11 true)
        (fixtureClient noCredentials 7)).calls =
        [.InstanceGet 11, .InstanceArrayGet 7, .InfrastructureGet 3, .confirmCommand,
          .InstanceServerPowerSet 11 "off"] ∧
      (instancePowerControlCmd (fixtureHelpers "no\n") (fixturePowerCommand 11 true)
        (fixtureClient noCredentials 7)).output = "" ∧
      (instancePowerControlCmd (fixtureHelpers "no\n") (fixturePowerCommand 11 true)
        (fixtureClient noCredentials 7)).err = none :=
  powerControl_confirmed (fixtureHelpers "no\n") (fixturePowerCommand 11 true)
    (fixtureClient noCredentials 7) 11 "off"
    ⟨11, "web-1", "web-1.example.com", 7, noCredentials⟩ ⟨7, "web", 3⟩ ⟨3, "prod"⟩
    (by decide) (by decide) rfl rfl rfl (by decide)

/-- C5: when `getIntParamOk` reports the instance id as missing, both
`instancePowerControlCmd` and `instanceCredentialsCmd` return the empty output
and an error whose message starts with `-id is required`, and make no call;
when `instancePowerControlCmd` goes on to the operation and `getStringParamOk`
reports it as missing, it returns the empty output and an error whose message
starts with `-operation is required`, and makes no call. -/
theorem required_arguments (h : Helpers) (c : Command) (client : MetalCloudClient) :
    (∀ v, h.getIntParamOk (c.Arguments "instance_id") = (v, false) →
        ((instancePowerControlCmd h c client).output = "" ∧
          (∃ e, (instancePowerControlCmd h c client).err = some e ∧
            HasPrefix e.Error "-id is required" = true) ∧
          (instancePowerControlCmd h c client).calls = []) ∧
        ((instanceCredentialsCmd h c client).output = "" ∧
          (∃ e, (instanceCredentialsCmd h c client).err = some e ∧
            HasPrefix e.Error "-id is required" = true) ∧
          (instanceCredentialsCmd h c client).calls = [])) ∧
      (∀ id v, h.getIntParamOk (c.Arguments "instance_id") = (id, true) →
        h.getStringParamOk (c.Arguments "operation") = (v, false) →
        (instancePowerControlCmd h c client).output = "" ∧
          (∃ e, (instancePowerControlCmd h c client).err = some e ∧
            HasPrefix e.Error "-operation is required" = true) ∧
          (instancePowerControlCmd h c client).calls = []) := by
  refine ⟨?_, ?_⟩
  · intro v hid
    simp only [instancePowerControlCmd, instanceCredentialsCmd, hid]
    exact ⟨⟨trivial, ⟨_, rfl, by decide⟩, trivial⟩, ⟨trivial, ⟨_, rfl, by decide⟩, trivial⟩⟩
  · intro id v hid hop
    simp only [instancePowerControlCmd, hid, hop]
    exact ⟨trivial, ⟨_, rfl, by decide⟩, trivial⟩

/-- Witness of C5: `instance credentials` without any flag is refused with the
id message, `instance power_control -id=11` without an operation is refused
with the operation message, and neither makes a call. -/
theorem required_arguments_witness :
    ((instanceCredentialsCmd (fixtureHelpers "") fixtureNoArguments
          (fixtureClient noCredentials 7)).output = "" ∧
        (∃ e, (instanceCredentialsCmd (fixtureHelpers "") fixtureNoArguments
          (fixtureClient noCredentials 7)).err = some e ∧
          HasPrefix e.Error "-id is required" = true) ∧
        (instanceCredentialsCmd (fixtureHelpers "") fixtureNoArguments
          (fixtureClient noCredentials 7)).calls = []) ∧
      (instancePowerControlCmd (fixtureHelpers "") fixtureNoOperation
          (fixtureClient noCredentials 7)).output = "" ∧
        (∃ e, (instancePowerControlCmd (fixtureHelpers "") fixtureNoOperation
          (fixtureClient noCredentials 7)).err = some e ∧
          HasPrefix e.Error "-operation is required" = true) ∧
        (instancePowerControlCmd (fixtureHelpers "") fixtureNoOperation
          (fixtureClient noCredentials 7)).calls = [] :=
  ⟨((required_arguments (fixtureHelpers "") fixtureNoArguments
      (fixtureClient noCredentials 7)).1 0 (by decide)).2,
    (required_arguments (fixtureHelpers "") fixtureNoOperation
      (fixtureClient noCredentials 7)).2 11 "" (by decide) (by decide)⟩

/-- C6, the operation `soft`: outside a go-test execution context, the
confirmation message built for the documented operation `soft` starts with the
separator `" instance "` itself, so the operation description before it is
empty; the description `Shutting down` is given to the operation `sort`, which
the flag documentation does not have. -/
theorem promptBuilder_soft (h : Helpers) (inst : Instance) (ia : InstanceArray)
    (infra : Infrastructure) :
    promptBuilder { h with osArgs0 := "metalcloud-cli" } "soft" inst ia infra () =
        "" ++ " instance " ++ inst.InstanceLabel ++ " (" ++ fmtInt inst.InstanceID ++
          ") of instance array " ++ ia.InstanceArrayLabel ++ " (#" ++
          fmtInt ia.InstanceArrayID ++ ") infrastructure " ++ infra.InfrastructureLabel ++
          " (#" ++ fmtInt infra.InfrastructureID ++
          ").  Are you sure? Type \"yes\" to continue:" ∧
      promptBuilder { h with osArgs0 := "metalcloud-cli" } "sort" inst ia infra () =
        "Shutting down" ++ " instance " ++ inst.InstanceLabel ++ " (" ++
          fmtInt inst.InstanceID ++ ") of instance array " ++ ia.InstanceArrayLabel ++ " (#" ++
          fmtInt ia.InstanceArrayID ++ ") infrastructure " ++ infra.InfrastructureLabel ++
          " (#" ++ fmtInt infra.InfrastructureID ++
          ").  Are you sure? Type \"yes\" to continue:" := by
  have hs : HasSuffix "metalcloud-cli" ".test" = false := by decide
  constructor
  · simp only [promptBuilder, hs]
    rfl
  · simp only [promptBuilder, hs]
    rfl

/-! ## Properties of `instanceCredentialsCmd` -/

/-- The shared-drive loop appends, to the schema, one group of four fields per
drive, numbered from `k` on, and, to the row, the four values of each drive. -/
theorem sharedDrivesLoop_eq (drives : List SharedDrive) :
    ∀ (k : Nat) (acc : List SchemaField × List Value),
      sharedDrivesLoop k drives acc =
        (acc.1 ++ (drives.enumFrom k).flatMap (fun p => [
            (⟨"SHARED_DRIVE_" ++ fmtIdx p.1 ++ "_TARGET_IP_ADDRESS", TypeString, 5⟩ : SchemaField),
            ⟨"SHARED_DRIVE_" ++ fmtIdx p.1 ++ "_TARGET_PORT", TypeInt, 5⟩,
            ⟨"SHARED_DRIVE_" ++ fmtIdx p.1 ++ "_TARGET_IQN", TypeString, 5⟩,
            ⟨"SHARED_DRIVE_" ++ fmtIdx p.1 ++ "_LUN_ID", TypeString, 5⟩]),
          acc.2 ++ (drives.enumFrom k).flatMap (fun p => [
            Value.str p.2.StorageIPAddress, .int p.2.StoragePort, .str p.2.TargetIQN,
            .str p.2.LunID])) := by
  induction drives with
  | nil => intro k acc; simp [sharedDrivesLoop]
  | cons sd rest ih =>
    intro k acc
    simp [sharedDrivesLoop, ih, sharedDriveStep, List.enumFrom_cons, List.flatMap_cons]

/-- The schema and the row of the credentials table, as one expression. -/
theorem credentialsTable_eq (inst : Instance) (ia : InstanceArray) (infra : Infrastructure) :
    credentialsTable inst ia infra =
      (([⟨"ID", TypeInt, 6⟩, ⟨"SUBDOMAIN", TypeString, 10⟩, ⟨"INSTANCE_ARRAY", TypeString, 10⟩,
          ⟨"INFRASTRUCTURE", TypeString, 10⟩, ⟨"PUBLIC_IPs", TypeString, 6⟩,
          ⟨"PRIVATE_IPs", TypeString, 6⟩] ++
        (match inst.InstanceCredentials.SSH with
          | some _ => [⟨"SSH_USERNAME", TypeString, 10⟩, ⟨"SSH_PASSWORD", TypeString, 10⟩,
              ⟨"SSH_PORT", TypeInt, 10⟩]
          | none => []) ++
        (match inst.InstanceCredentials.RDP with
          | some _ => [⟨"RDP_USERNAME", TypeString, 5⟩, ⟨"RDP_PASSWORD", TypeString, 5⟩,
              ⟨"RDP_PORT", TypeInt, 5⟩]
          | none => []) ++
        (match inst.InstanceCredentials.ISCSI with
          | some _ => [⟨"INITIATOR_IQN", TypeString, 5⟩, ⟨"ISCSI_USERNAME", TypeString, 5⟩,
              ⟨"ISCSI_PASSWORD", TypeString, 5⟩]
          | none => [])) ++
        (sharedDrives inst).enum.flatMap (fun p => [
          (⟨"SHARED_DRIVE_" ++ fmtIdx p.1 ++ "_TARGET_IP_ADDRESS", TypeString, 5⟩ : SchemaField),
          ⟨"SHARED_DRIVE_" ++ fmtIdx p.1 ++ "_TARGET_PORT", TypeInt, 5⟩,
          ⟨"SHARED_DRIVE_" ++ fmtIdx p.1 ++ "_TARGET_IQN", TypeString, 5⟩,
          ⟨"SHARED_DRIVE_" ++ fmtIdx p.1 ++ "_LUN_ID", TypeString, 5⟩]),
       ([Value.int inst.InstanceID, .str inst.InstanceSubdomainPermanent,
          .str ia.InstanceArrayLabel, .str infra.InfrastructureLabel,
          .str (Join (getIPsAsStringArray inst.InstanceCredentials.IPAddressesPublic) " "),
          .str (Join (getIPsAsStringArray inst.InstanceCredentials.IPAddressesPrivate) " ")] ++
        (match inst.InstanceCredentials.SSH with
          | some v => [Value.str v.Username, .str v.InitialPassword, .int v.Port]
          | none => []) ++
        (match inst.InstanceCredentials.RDP with
          | some v => [Value.str v.Username, .str v.InitialPassword, .int v.Port]
          | none => []) ++
        (match inst.InstanceCredentials.ISCSI with
          | some v => [Value.str v.InitiatorIQN, .str v.Username, .str v.Password]
          | none => [])) ++
        (sharedDrives inst).enum.flatMap (fun p => [
          Value.str p.2.StorageIPAddress, .int p.2.StoragePort, .str p.2.TargetIQN,
          .str p.2.LunID])) := by
  obtain ⟨id, label, sub, arr, ⟨ssh, rdp, iscsi, sd, pub, priv⟩⟩ := inst
  cases ssh <;> cases rdp <;> cases iscsi <;> cases sd <;>
    simp [credentialsTable, sharedDrives, sharedDrivesLoop_eq, List.enum]

/-- When the instance id is given and the three reads succeed,
`instanceCredentialsCmd` ends by calling `renderTransposedTable` on the one
row and the schema of `credentialsTable`. -/
theorem credentials_rendered (h : Helpers) (c : Command) (client : MetalCloudClient)
    (instanceID : Int) (inst : Instance) (ia : InstanceArray) (infra : Infrastructure)
    (hid : h.getIntParamOk (c.Arguments "instance_id") = (instanceID, true))
    (h1 : client.InstanceGet instanceID = .ok inst)
    (h2 : client.InstanceArrayGet inst.InstanceArrayID = .ok ia)
    (h3 : client.InfrastructureGet ia.InfrastructureID = .ok infra) :
    (instanceCredentialsCmd h c client).rendered =
      some ([(credentialsTable inst ia infra).2], (credentialsTable inst ia infra).1) := by
  simp [instanceCredentialsCmd, Run.rendered, hid, h1, h2, h3]

/-- A list of groups of four has four times as many elements as groups. -/
theorem length_flatMap_four {α β : Type} (f : α → List β) (hf : ∀ a, (f a).length = 4) :
    ∀ l : List α, (l.flatMap f).length = 4 * l.length := by
  intro l
  induction l with
  | nil => simp
  | cons a rest ih => simp [List.flatMap_cons, hf, ih]; omega

/-- C2: for an instance whose credentials have the SSH block and neither RDP,
iSCSI nor shared drives, the schema handed to `renderTransposedTable` has
exactly 9 fields, the 6 base fields followed by the 3 SSH fields, and no field
whose name starts with `RDP_`, `ISCSI_`, `INITIATOR_` or `SHARED_DRIVE_`. -/
theorem credentials_ssh_only (h : Helpers) (c : Command) (client : MetalCloudClient)
    (instanceID : Int) (inst : Instance) (ia : InstanceArray) (infra : Infrastructure)
    (hid : h.getIntParamOk (c.Arguments "instance_id") = (instanceID, true))
    (h1 : client.InstanceGet instanceID = .ok inst)
    (h2 : client.InstanceArrayGet inst.InstanceArrayID = .ok ia)
    (h3 : client.InfrastructureGet ia.InfrastructureID = .ok infra)
    (hssh : inst.InstanceCredentials.SSH.isSome = true)
    (hrdp : inst.InstanceCredentials.RDP = none)
    (hiscsi : inst.InstanceCredentials.ISCSI = none)
    (hsd : sharedDrives inst = []) :
    ∃ row schema, (instanceCredentialsCmd h c client).rendered = some ([row], schema) ∧
      schema.length = 9 ∧
      schema.map SchemaField.FieldName =
        ["ID", "SUBDOMAIN", "INSTANCE_ARRAY", "INFRASTRUCTURE", "PUBLIC_IPs", "PRIVATE_IPs",
          "SSH_USERNAME", "SSH_PASSWORD", "SSH_PORT"] ∧
      ∀ f ∈ schema, HasPrefix f.FieldName "RDP_" = false ∧
        HasPrefix f.FieldName "ISCSI_" = false ∧ HasPrefix f.FieldName "INITIATOR_" = false ∧
        HasPrefix f.FieldName "SHARED_DRIVE_" = false := by
  refine ⟨_, _, credentials_rendered h c client instanceID inst ia infra hid h1 h2 h3, ?_⟩
  obtain ⟨v, hv⟩ := Option.isSome_iff_exists.mp hssh
  rw [credentialsTable_eq]
  simp only [hv, hrdp, hiscsi, hsd, List.enum_nil, List.flatMap_nil, List.append_nil]
  refine ⟨rfl, rfl, ?_⟩
  intro f hf
  simp only [List.cons_append, List.nil_append, List.mem_cons, List.mem_singleton] at hf
  rcases hf with rfl | rfl | rfl | rfl | rfl | rfl | rfl | rfl | rfl | hf
  all_goals first | decide | simp at hf

/-- Witness of C2: instance 11 with an SSH block only. -/
theorem credentials_ssh_only_witness :
    ∃ row schema,
      (instanceCredentialsCmd (fixtureHelpers "") fixtureCredentialsCommand
        (fixtureClient sshOnly 7)).rendered = some ([row], schema) ∧
      schema.length = 9 ∧
      schema.map SchemaField.FieldName =
        ["ID", "SUBDOMAIN", "INSTANCE_ARRAY", "INFRASTRUCTURE", "PUBLIC_IPs", "PRIVATE_IPs",
          "SSH_USERNAME", "SSH_PASSWORD", "SSH_PORT"] ∧
      ∀ f ∈ schema, HasPrefix f.FieldName "RDP_" = false ∧
        HasPrefix f.FieldName "ISCSI_" = false ∧ HasPrefix f.FieldName "INITIATOR_" = false ∧
        HasPrefix f.FieldName "SHARED_DRIVE_" = false :=
  credentials_ssh_only (fixtureHelpers "") fixtureCredentialsCommand (fixtureClient sshOnly 7) 11
    ⟨11, "web-1", "web-1.example.com", 7, sshOnly⟩ ⟨7, "web", 3⟩ ⟨3, "prod"⟩
    (by decide) rfl rfl rfl (by decide) (by decide) (by decide) (by decide)

/-- C3: for every instance, instance array and infrastructure that the client
returns, the one data row handed to `renderTransposedTable` is as long as the
schema, and both have 6 + 3 [SSH present] + 3 [RDP present] + 3 [ISCSI present]
+ 4 n elements, n being the number of shared drives. -/
theorem credentials_row_arity (h : Helpers) (c : Command) (client : MetalCloudClient)
    (instanceID : Int) (inst : Instance) (ia : InstanceArray) (infra : Infrastructure)
    (hid : h.getIntParamOk (c.Arguments "instance_id") = (instanceID, true))
    (h1 : client.InstanceGet instanceID = .ok inst)
    (h2 : client.InstanceArrayGet inst.InstanceArrayID = .ok ia)
    (h3 : client.InfrastructureGet ia.InfrastructureID = .ok infra) :
    ∃ row schema, (instanceCredentialsCmd h c client).rendered = some ([row], schema) ∧
      row.length = schema.length ∧
      schema.length = 6 + 3 * present inst.InstanceCredentials.SSH +
        3 * present inst.InstanceCredentials.RDP + 3 * present inst.InstanceCredentials.ISCSI +
        4 * (sharedDrives inst).length := by
  refine ⟨_, _, credentials_rendered h c client instanceID inst ia infra hid h1 h2 h3, ?_⟩
  rw [credentialsTable_eq]
  simp only [List.length_append]
  rw [length_flatMap_four, length_flatMap_four]
  · cases inst.InstanceCredentials.SSH <;> cases inst.InstanceCredentials.RDP <;>
      cases inst.InstanceCredentials.ISCSI <;> simp [present, List.enum_length]
  · intro _; rfl
  · intro _; rfl

/-- Witness of C3: instance 11 with RDP, iSCSI and two shared drives: 20
fields and 20 values. -/
theorem credentials_row_arity_witness :
    ∃ row schema,
      (instanceCredentialsCmd (fixtureHelpers "") fixtureCredentialsCommand
        (fixtureClient twoDrives 7)).rendered = some ([row], schema) ∧
      row.length = schema.length ∧
      schema.length = 6 + 3 * present (none : Option SSH) +
        3 * present (some (⟨"Administrator", "secret", 3389⟩ : RDP)) +
        3 * present (some (⟨"iqn.2019-01.com.example:init", "u", "p"⟩ : ISCSIInitiator)) +
        4 * (sharedDrives ⟨11, "web-1", "web-1.example.com", 7, twoDrives⟩).length :=
  credentials_row_arity (fixtureHelpers "") fixtureCredentialsCommand (fixtureClient twoDrives 7)
    11 ⟨11, "web-1", "web-1.example.com", 7, twoDrives⟩ ⟨7, "web", 3⟩ ⟨3, "prod"⟩
    (by decide) rfl rfl rfl

/-- In a list of groups of four built over the numbered elements of `l`, the
element at position `4 k + j` is element `j` of the group of `l[k]`. -/
theorem getElem?_enumFrom_flatMap_four {α β : Type} (f : Nat × α → List β)
    (hf : ∀ p, (f p).length = 4) :
    ∀ (l : List α) (s k j : Nat) (hk : k < l.length), j < 4 →
      ((l.enumFrom s).flatMap f)[4 * k + j]? = (f (s + k, l[k]))[j]? := by
  intro l
  induction l with
  | nil => intro s k j hk; simp at hk
  | cons a rest ih =>
    intro s k j hk hj
    rw [List.enumFrom_cons, List.flatMap_cons]
    cases k with
    | zero =>
      rw [List.getElem?_append_left (by rw [hf]; omega)]
      simp
    | succ k =>
      have hk2 : k < rest.length := by simpa using hk
      rw [List.getElem?_append_right (by rw [hf]; omega)]
      have e : 4 * (k + 1) + j - (f (s, a)).length = 4 * k + j := by rw [hf]; omega
      rw [e, ih (s + 1) k j hk2 hj]
      have e2 : s + 1 + k = s + (k + 1) := by omega
      simp [e2]

/-- The fields and the values that precede the shared-drive groups are equally
many, and none of these fields is named after a shared drive. -/
theorem credentials_before_drives (inst : Instance) (ia : InstanceArray)
    (infra : Infrastructure) :
    ∃ (pre : List SchemaField) (preRow : List Value),
      (credentialsTable inst ia infra).1 = pre ++ (sharedDrives inst).enum.flatMap (fun p => [
          (⟨"SHARED_DRIVE_" ++ fmtIdx p.1 ++ "_TARGET_IP_ADDRESS", TypeString, 5⟩ : SchemaField),
          ⟨"SHARED_DRIVE_" ++ fmtIdx p.1 ++ "_TARGET_PORT", TypeInt, 5⟩,
          ⟨"SHARED_DRIVE_" ++ fmtIdx p.1 ++ "_TARGET_IQN", TypeString, 5⟩,
          ⟨"SHARED_DRIVE_" ++ fmtIdx p.1 ++ "_LUN_ID", TypeString, 5⟩]) ∧
      (credentialsTable inst ia infra).2 = preRow ++ (sharedDrives inst).enum.flatMap (fun p => [
          Value.str p.2.StorageIPAddress, .int p.2.StoragePort, .str p.2.TargetIQN,
          .str p.2.LunID]) ∧
      pre.length = preRow.length ∧
      ∀ f ∈ pre, HasPrefix f.FieldName "SHARED_DRIVE_" = false := by
  rw [credentialsTable_eq]
  obtain ⟨id, label, sub, arr, ⟨ssh, rdp, iscsi, sd, pub, priv⟩⟩ := inst
  refine ⟨_, _, rfl, rfl, ?_, ?_⟩
  · cases ssh <;> cases rdp <;> cases iscsi <;> rfl
  · cases ssh <;> cases rdp <;> cases iscsi <;> dsimp only <;> decide

/-- C8: for an instance with n shared drives, the schema and the row handed to
`renderTransposedTable` end with n groups of four, after a common number
`base` of leading positions none of which is named after a shared drive; for
every k below n, the group at positions `base + 4 k` ... `base + 4 k + 3` names
`SHARED_DRIVE_k_TARGET_IP_ADDRESS`, `SHARED_DRIVE_k_TARGET_PORT`,
`SHARED_DRIVE_k_TARGET_IQN`, `SHARED_DRIVE_k_LUN_ID`, and the row holds, at
these positions, the `StorageIPAddress`, `StoragePort`, `TargetIQN` and `LunID`
of drive k. -/
theorem credentials_shared_drives (h : Helpers) (c : Command) (client : MetalCloudClient)
    (instanceID : Int) (inst : Instance) (ia : InstanceArray) (infra : Infrastructure)
    (hid : h.getIntParamOk (c.Arguments "instance_id") = (instanceID, true))
    (h1 : client.InstanceGet instanceID = .ok inst)
    (h2 : client.InstanceArrayGet inst.InstanceArrayID = .ok ia)
    (h3 : client.InfrastructureGet ia.InfrastructureID = .ok infra) :
    ∃ row schema base, (instanceCredentialsCmd h c client).rendered = some ([row], schema) ∧
      schema.length = base + 4 * (sharedDrives inst).length ∧
      row.length = base + 4 * (sharedDrives inst).length ∧
      (∀ f ∈ schema.take base, HasPrefix f.FieldName "SHARED_DRIVE_" = false) ∧
      ∀ (k : Nat) (hk : k < (sharedDrives inst).length),
        schema[base + 4 * k]? =
            some ⟨"SHARED_DRIVE_" ++ fmtIdx k ++ "_TARGET_IP_ADDRESS", TypeString, 5⟩ ∧
          schema[base + 4 * k + 1]? =
            some ⟨"SHARED_DRIVE_" ++ fmtIdx k ++ "_TARGET_PORT", TypeInt, 5⟩ ∧
          schema[base + 4 * k + 2]? =
            some ⟨"SHARED_DRIVE_" ++ fmtIdx k ++ "_TARGET_IQN", TypeString, 5⟩ ∧
          schema[base + 4 * k + 3]? =
            some ⟨"SHARED_DRIVE_" ++ fmtIdx k ++ "_LUN_ID", TypeString, 5⟩ ∧
          row[base + 4 * k]? = some (.str (sharedDrives inst)[k].StorageIPAddress) ∧
          row[base + 4 * k + 1]? = some (.int (sharedDrives inst)[k].StoragePort) ∧
          row[base + 4 * k + 2]? = some (.str (sharedDrives inst)[k].TargetIQN) ∧
          row[base + 4 * k + 3]? = some (.str (sharedDrives inst)[k].LunID) := by
  obtain ⟨pre, preRow, hs, hr, hlen, hpre⟩ := credentials_before_drives inst ia infra
  refine ⟨_, _, pre.length,
    credentials_rendered h c client instanceID inst ia infra hid h1 h2 h3, ?_, ?_, ?_, ?_⟩
  · rw [hs, List.length_append, length_flatMap_four _ (by intro _; rfl), List.enum_length]
  · rw [hr, List.length_append, length_flatMap_four _ (by intro _; rfl), List.enum_length, hlen]
  · rw [hs, List.take_left]
    exact hpre
  · intro k hk
    have key : ∀ {β : Type} (f : Nat × SharedDrive → List β), (∀ p, (f p).length = 4) →
        ∀ (front : List β) (j : Nat), j < 4 →
          (front ++ (sharedDrives inst).enum.flatMap f)[front.length + 4 * k + j]? =
            (f (k, (sharedDrives inst)[k]))[j]? := by
      intro β f hf front j hj
      rw [List.getElem?_append_right (by omega)]
      have e : front.length + 4 * k + j - front.length = 4 * k + j := by omega
      rw [e, List.enum, getElem?_enumFrom_flatMap_four f hf _ 0 k j hk hj, Nat.zero_add]
    rw [hs, hr]
    refine ⟨?_, ?_, ?_, ?_, ?_, ?_, ?_, ?_⟩
    · refine (key _ ?_ pre 0 (by omega)).trans ?_
      · intro _; rfl
      · rfl
    · refine (key _ ?_ pre 1 (by omega)).trans ?_
      · intro _; rfl
      · rfl
    · refine (key _ ?_ pre 2 (by omega)).trans ?_
      · intro _; rfl
      · rfl
    · refine (key _ ?_ pre 3 (by omega)).trans ?_
      · intro _; rfl
      · rfl
    · rw [hlen]
      refine (key _ ?_ preRow 0 (by omega)).trans ?_
      · intro _; rfl
      · rfl
    · rw [hlen]
      refine (key _ ?_ preRow 1 (by omega)).trans ?_
      · intro _; rfl
      · rfl
    · rw [hlen]
      refine (key _ ?_ preRow 2 (by omega)).trans ?_
      · intro _; rfl
      · rfl
    · rw [hlen]
      refine (key _ ?_ preRow 3 (by omega)).trans ?_
      · intro _; rfl
      · rfl

/-- Witness of C8: instance 11 with two shared drives. -/
theorem credentials_shared_drives_witness :
    ∃ row schema base,
      (instanceCredentialsCmd (fixtureHelpers "") fixtureCredentialsCommand
        (fixtureClient twoDrives 7)).rendered = some ([row], schema) ∧
      schema.length =
        base + 4 * (sharedDrives ⟨11, "web-1", "web-1.example.com", 7, twoDrives⟩).length ∧
      row.length =
        base + 4 * (sharedDrives ⟨11, "web-1", "web-1.example.com", 7, twoDrives⟩).length ∧
      (∀ f ∈ schema.take base, HasPrefix f.FieldName "SHARED_DRIVE_" = false) ∧
      ∀ (k : Nat)
        (hk : k < (sharedDrives ⟨11, "web-1", "web-1.example.com", 7, twoDrives⟩).length),
        schema[base + 4 * k]? =
            some ⟨"SHARED_DRIVE_" ++ fmtIdx k ++ "_TARGET_IP_ADDRESS", TypeString, 5⟩ ∧
          schema[base + 4 * k + 1]? =
            some ⟨"SHARED_DRIVE_" ++ fmtIdx k ++ "_TARGET_PORT", TypeInt, 5⟩ ∧
          schema[base + 4 * k + 2]? =
            some ⟨"SHARED_DRIVE_" ++ fmtIdx k ++ "_TARGET_IQN", TypeString, 5⟩ ∧
          schema[base + 4 * k + 3]? =
            some ⟨"SHARED_DRIVE_" ++ fmtIdx k ++ "_LUN_ID", TypeString, 5⟩ ∧
          row[base + 4 * k]? = some (.str
            (sharedDrives ⟨11, "web-1", "web-1.example.com", 7, twoDrives⟩)[k].StorageIPAddress) ∧
          row[base + 4 * k + 1]? = some (.int
            (sharedDrives ⟨11, "web-1", "web-1.example.com", 7, twoDrives⟩)[k].StoragePort) ∧
          row[base + 4 * k + 2]? = some (.str
            (sharedDrives ⟨11, "web-1", "web-1.example.com", 7, twoDrives⟩)[k].TargetIQN) ∧
          row[base + 4 * k + 3]? = some (.str
            (sharedDrives ⟨11, "web-1", "web-1.example.com", 7, twoDrives⟩)[k].LunID) :=
  credentials_shared_drives (fixtureHelpers "") fixtureCredentialsCommand
    (fixtureClient twoDrives 7) 11 ⟨11, "web-1", "web-1.example.com", 7, twoDrives⟩
    ⟨7, "web", 3⟩ ⟨3, "prod"⟩ (by decide) rfl rfl rfl

/-- C9: for every instance, the names of the schema handed to
`renderTransposedTable` are, in this order, the 6 base names, the SSH group
when the SSH block is present, the RDP group when the RDP block is present,
the iSCSI group when the iSCSI initiator is present, and one group of four
names per shared drive; an absent block contributes no name. -/
theorem credentials_schema_names (h : Helpers) (c : Command) (client : MetalCloudClient)
    (instanceID : Int) (inst : Instance) (ia : InstanceArray) (infra : Infrastructure)
    (hid : h.getIntParamOk (c.Arguments "instance_id") = (instanceID, true))
    (h1 : client.InstanceGet instanceID = .ok inst)
    (h2 : client.InstanceArrayGet inst.InstanceArrayID = .ok ia)
    (h3 : client.InfrastructureGet ia.InfrastructureID = .ok infra) :
    ∃ row schema, (instanceCredentialsCmd h c client).rendered = some ([row], schema) ∧
      schema.map SchemaField.FieldName =
        ["ID", "SUBDOMAIN", "INSTANCE_ARRAY", "INFRASTRUCTURE", "PUBLIC_IPs", "PRIVATE_IPs"] ++
        (if inst.InstanceCredentials.SSH.isSome then
          ["SSH_USERNAME", "SSH_PASSWORD", "SSH_PORT"] else []) ++
        (if inst.InstanceCredentials.RDP.isSome then
          ["RDP_USERNAME", "RDP_PASSWORD", "RDP_PORT"] else []) ++
        (if inst.InstanceCredentials.ISCSI.isSome then
          ["INITIATOR_IQN", "ISCSI_USERNAME", "ISCSI_PASSWORD"] else []) ++
        (sharedDrives inst).enum.flatMap (fun p => [
          "SHARED_DRIVE_" ++ fmtIdx p.1 ++ "_TARGET_IP_ADDRESS",
          "SHARED_DRIVE_" ++ fmtIdx p.1 ++ "_TARGET_PORT",
          "SHARED_DRIVE_" ++ fmtIdx p.1 ++ "_TARGET_IQN",
          "SHARED_DRIVE_" ++ fmtIdx p.1 ++ "_LUN_ID"]) := by
  refine ⟨_, _, credentials_rendered h c client instanceID inst ia infra hid h1 h2 h3, ?_⟩
  rw [credentialsTable_eq]
  cases inst.InstanceCredentials.SSH <;> cases inst.InstanceCredentials.RDP <;>
    cases inst.InstanceCredentials.ISCSI <;>
    simp [List.map_flatMap, List.flatMap_def, Function.comp_def]

/-- Witness of C9: instance 11 with RDP, iSCSI and two shared drives, and no
SSH block: 6 base names, no SSH name, 3 RDP names, 3 iSCSI names and the
groups of the drives 0 and 1. -/
theorem credentials_schema_names_witness :
    ∃ row schema,
      (instanceCredentialsCmd (fixtureHelpers "") fixtureCredentialsCommand
        (fixtureClient twoDrives 7)).rendered = some ([row], schema) ∧
      schema.map SchemaField.FieldName =
        ["ID", "SUBDOMAIN", "INSTANCE_ARRAY", "INFRASTRUCTURE", "PUBLIC_IPs", "PRIVATE_IPs",
          "RDP_USERNAME", "RDP_PASSWORD", "RDP_PORT",
          "INITIATOR_IQN", "ISCSI_USERNAME", "ISCSI_PASSWORD",
          "SHARED_DRIVE_0_TARGET_IP_ADDRESS", "SHARED_DRIVE_0_TARGET_PORT",
          "SHARED_DRIVE_0_TARGET_IQN", "SHARED_DRIVE_0_LUN_ID",
          "SHARED_DRIVE_1_TARGET_IP_ADDRESS", "SHARED_DRIVE_1_TARGET_PORT",
          "SHARED_DRIVE_1_TARGET_IQN", "SHARED_DRIVE_1_LUN_ID"] := by
  obtain ⟨row, schema, hr, hn⟩ :=
    credentials_schema_names (fixtureHelpers "") fixtureCredentialsCommand
      (fixtureClient twoDrives 7) 11 ⟨11, "web-1", "web-1.example.com", 7, twoDrives⟩
      ⟨7, "web", 3⟩ ⟨3, "prod"⟩ (by decide) rfl rfl rfl
  exact ⟨row, schema, hr, hn.trans (by decide)⟩

/-! ## Reading back what the `json` encoding writes -/

/-- A quote ends the body of a string literal. -/
theorem parseStringBody_quote (rest : List Char) :
    parseStringBody ('"' :: rest) = some ([], rest) := by
  rw [parseStringBody.eq_def]; simp

/-- A character that needs no escape stands for itself. -/
theorem parseStringBody_plain (c : Char) (rest : List Char) (h1 : c ≠ '"') (h2 : c ≠ '\\')
    (h3 : ¬ c.toNat < 32) :
    parseStringBody (c :: rest) =
      match parseStringBody rest with
      | some (s, r) => some (c :: s, r)
      | none => none := by
  rw [parseStringBody.eq_def]; simp [h1, h2, h3]

/-- A backslash and a letter other than `u` are a one-letter escape. -/
theorem parseStringBody_letter (e : Char) (rest : List Char) (h1 : e ≠ 'u') :
    parseStringBody ('\\' :: e :: rest) =
      match unescape e, parseStringBody rest with
      | some ch, some (s, r) => some (ch :: s, r)
      | _, _ => none := by
  rw [parseStringBody.eq_def]; simp [h1]

/-- A backslash, `u` and four characters are a hexadecimal escape. -/
theorem parseStringBody_hex (a b c d : Char) (rest : List Char) :
    parseStringBody ('\\' :: 'u' :: a :: b :: c :: d :: rest) =
      match parseHex4 a b c d, parseStringBody rest with
      | some ch, some (s, r) => some (ch :: s, r)
      | _, _ => none := by
  rw [parseStringBody.eq_def]; simp

/-- Nothing is skipped before a character that is not whitespace. -/
theorem skipWs_of_not_ws (c : Char) (rest : List Char) (hc : isWs c = false) :
    skipWs (c :: rest) = c :: rest := by
  simp [skipWs, hc]

/-- The escape of a control character is read back as that character. -/
theorem parseHex4_control (c : Char) (hc : c.toNat < 32) :
    parseHex4 '0' '0' (Nat.digitChar (c.toNat / 16)) (Nat.digitChar (c.toNat % 16)) =
      some c := by
  have key : ∀ n, n < 32 →
      parseHex4 '0' '0' (Nat.digitChar (n / 16)) (Nat.digitChar (n % 16)) =
        some (Char.ofNat n) := by
    decide
  have h := key c.toNat hc
  rwa [Char.ofNat_toNat] at h

/-- The body of a string literal is read back as the string. -/
theorem parseStringBody_escape (s : List Char) (rest : List Char) :
    parseStringBody (s.flatMap escapeChar ++ '"' :: rest) = some (s, rest) := by
  induction s with
  | nil => simp [parseStringBody_quote]
  | cons c s ih =>
    rw [List.flatMap_cons, List.append_assoc]
    by_cases h1 : c = '"'
    · subst h1
      have e : escapeChar '"' = ['\\', '"'] := by decide
      rw [e, List.cons_append, List.cons_append, List.nil_append,
        parseStringBody_letter _ _ (by decide), ih]
      rfl
    · by_cases h2 : c = '\\'
      · subst h2
        have e : escapeChar '\\' = ['\\', '\\'] := by decide
        rw [e, List.cons_append, List.cons_append, List.nil_append,
          parseStringBody_letter _ _ (by decide), ih]
        rfl
      · by_cases h3 : c.toNat < 32
        · have e : escapeChar c =
              ['\\', 'u', '0', '0', Nat.digitChar (c.toNat / 16),
                Nat.digitChar (c.toNat % 16)] := by
            simp [escapeChar, h1, h2, h3]
          rw [e]
          simp only [List.cons_append, List.nil_append]
          rw [parseStringBody_hex, parseHex4_control c h3, ih]
        · have e : escapeChar c = [c] := by simp [escapeChar, h1, h2, h3]
          rw [e, List.cons_append, List.nil_append, parseStringBody_plain c _ h1 h2 h3, ih]

/-- A string literal is read back as the string. -/
theorem parseString_quote (s : String) (rest : List Char) :
    parseString (quoteJSON s ++ rest) = some (s, rest) := by
  simp [parseString, quoteJSON, expect, parseStringBody_escape]

/-- A decimal digit is read back as its value. -/
theorem digitVal_digitChar (m : Nat) (hm : m < 10) : digitVal (Nat.digitChar m) = some m := by
  revert m
  decide

/-- Reading one digit. -/
theorem parseDigits_digit (acc m : Nat) (hm : m < 10) (rest : List Char) :
    parseDigits acc (Nat.digitChar m :: rest) = parseDigits (acc * 10 + m) rest := by
  simp [parseDigits, digitVal_digitChar m hm]

/-- Reading stops before a character that is not a digit. -/
theorem parseDigits_stop (acc : Nat) (c : Char) (rest : List Char) (hc : digitVal c = none) :
    parseDigits acc (c :: rest) = (acc, c :: rest) := by
  simp [parseDigits, hc]

/-- The digits that `Nat.toDigitsCore` puts before its accumulator: they are
digits, one at least, the first one is `0` only when the number is 0 and has
this one digit, and reading them onto `acc` shifts `acc` and adds `n`. -/
theorem toDigitsCore_digits (fuel : Nat) :
    ∀ n, n < fuel → ∃ digits : List Char,
      (∀ ds, Nat.toDigitsCore 10 fuel n ds = digits ++ ds) ∧
      (∃ m t, m < 10 ∧ digits = Nat.digitChar m :: t ∧ (m = 0 → n = 0 ∧ t = [])) ∧
      ∀ acc rest, parseDigits acc (digits ++ rest) =
        parseDigits (acc * 10 ^ digits.length + n) rest := by
  induction fuel with
  | zero => intro n hn; omega
  | succ fuel ih =>
    intro n hn
    by_cases h0 : n / 10 = 0
    · refine ⟨[Nat.digitChar (n % 10)], ?_,
        ⟨n % 10, [], Nat.mod_lt _ (by omega), rfl, ?_⟩, ?_⟩
      · intro ds
        simp [Nat.toDigitsCore, h0]
      · intro hm
        exact ⟨by omega, rfl⟩
      · intro acc rest
        have hn10 : n % 10 = n := by omega
        rw [List.singleton_append, parseDigits_digit _ _ (Nat.mod_lt _ (by omega)), hn10]
        simp
    · obtain ⟨digits, hcore, ⟨m, t, hm, hd, hzero⟩, hparse⟩ := ih (n / 10) (by omega)
      refine ⟨digits ++ [Nat.digitChar (n % 10)], ?_,
        ⟨m, t ++ [Nat.digitChar (n % 10)], hm, ?_, ?_⟩, ?_⟩
      · intro ds
        simp [Nat.toDigitsCore, h0, hcore]
      · rw [hd]; rfl
      · intro hm0
        exact absurd (hzero hm0).1 h0
      · intro acc rest
        rw [List.append_assoc, hparse, List.singleton_append,
          parseDigits_digit _ _ (Nat.mod_lt _ (by omega)), List.length_append,
          List.length_singleton, Nat.pow_succ]
        congr 1
        have := Nat.div_add_mod n 10
        rw [Nat.add_mul, Nat.mul_assoc, Nat.add_assoc]
        omega

/-- A natural number printed in decimal and followed by something that is not
a digit is read back as that number: its text has no leading zero. -/
theorem parseNat_toString (n : Nat) (c : Char) (rest : List Char) (hc : digitVal c = none) :
    ∃ m t, m < 10 ∧ (toString n).data = Nat.digitChar m :: t ∧
      parseNat ((toString n).data ++ c :: rest) = some (n, c :: rest) := by
  obtain ⟨digits, hcore, ⟨m, t, hm, hd, hzero⟩, hparse⟩ :=
    toDigitsCore_digits (n + 1) n (by omega)
  have e : (toString n).data = digits := by
    show (Nat.repr n).data = digits
    simp [Nat.repr, Nat.toDigits, hcore, List.asString]
  refine ⟨m, t, hm, e.trans hd, ?_⟩
  rw [e]
  by_cases hm0 : m = 0
  · obtain ⟨hn, ht⟩ := hzero hm0
    subst hm0
    rw [hd, ht, hn]
    simp [parseNat, digitVal_digitChar 0 (by omega), hc]
  · have hp := hparse 0 (c :: rest)
    rw [hd] at hp ⊢
    rw [List.cons_append] at hp ⊢
    rw [parseDigits_digit 0 m hm] at hp
    simp only [parseNat, digitVal_digitChar m hm, hm0, if_false]
    rw [Nat.zero_mul, Nat.zero_add] at hp
    rw [hp, parseDigits_stop _ _ _ hc]
    simp

/-- A digit is neither whitespace, nor a quote, nor a minus sign, nor the
first letter of `true` or `false`. -/
theorem digitChar_plain (m : Nat) (hm : m < 10) :
    isWs (Nat.digitChar m) = false ∧ Nat.digitChar m ≠ '"' ∧ Nat.digitChar m ≠ '-' ∧
      Nat.digitChar m ≠ 't' ∧ Nat.digitChar m ≠ 'f' := by
  revert m
  decide

/-- An integer printed in decimal and followed by something that is not a
digit is read back as that integer; its text starts with a character that is
neither whitespace, nor a quote, nor the first letter of `true` or `false`. -/
theorem parseInt_toString (i : Int) (c : Char) (rest : List Char) (hc : digitVal c = none) :
    (∃ d t, (toString i).data = d :: t ∧ isWs d = false ∧ d ≠ '"' ∧ d ≠ 't' ∧ d ≠ 'f') ∧
      parseInt ((toString i).data ++ c :: rest) = some (i, c :: rest) := by
  cases i with
  | ofNat n =>
    obtain ⟨m, t, hm, hd, hp⟩ := parseNat_toString n c rest hc
    have e : (toString (Int.ofNat n)).data = (toString n).data := rfl
    obtain ⟨hws, hq, hminus, ht, hf⟩ := digitChar_plain m hm
    refine ⟨⟨_, t, e.trans hd, hws, hq, ht, hf⟩, ?_⟩
    rw [e]
    rw [hd] at hp ⊢
    rw [List.cons_append] at hp ⊢
    simp only [parseInt, hminus, if_false, hp]
    rfl
  | negSucc n =>
    obtain ⟨m, t, hm, hd, hp⟩ := parseNat_toString (n + 1) c rest hc
    have e : (toString (Int.negSucc n)).data = '-' :: (toString (n + 1)).data := rfl
    refine ⟨⟨_, _, e, by decide, by decide, by decide, by decide⟩, ?_⟩
    rw [e, List.cons_append]
    simp only [parseInt, if_true, hp]
    rfl

/-- The text of a value under the declared type of its field, followed by
something that is not a digit, is read back as the JSON value of that value,
also after skipping whitespace. -/
theorem parseScalar_render (ty : FieldType) (v : Value) (text : List Char)
    (htext : renderScalar ty v = some text) (c : Char) (rest : List Char)
    (hc : digitVal c = none) :
    parseScalar (skipWs (text ++ c :: rest)) = some (v.toJson, c :: rest) := by
  cases v with
  | int i =>
    cases ty <;> simp only [renderScalar, Option.some.injEq, reduceCtorEq] at htext
    subst htext
    obtain ⟨⟨d, t, hd, hws, hq, ht, hf⟩, hp⟩ := parseInt_toString i c rest hc
    simp only [Value.toJson]
    rw [hd] at hp ⊢
    rw [List.cons_append] at hp ⊢
    rw [skipWs_of_not_ws _ _ hws]
    simp only [parseScalar, hq, ht, hf, if_false, hp]
  | str s =>
    cases ty <;> simp only [renderScalar, Option.some.injEq, reduceCtorEq] at htext
    subst htext
    simp only [Value.toJson]
    have hs : skipWs (quoteJSON s ++ c :: rest) = quoteJSON s ++ c :: rest := by
      simp only [quoteJSON, List.cons_append]
      exact skipWs_of_not_ws _ _ (by decide)
    rw [hs]
    have hp := parseString_quote s (c :: rest)
    simp only [quoteJSON, List.cons_append] at hp ⊢
    simp only [parseScalar, if_true, hp]
  | bool b =>
    cases ty <;> simp only [renderScalar, Option.some.injEq, reduceCtorEq] at htext
    subst htext
    cases b
    · simp only [Value.toJson, Bool.false_eq_true, if_false, List.cons_append, List.nil_append]
      rw [skipWs_of_not_ws _ _ (by decide)]
      simp [parseScalar, expectWord]
    · simp only [Value.toJson, if_true, List.cons_append, List.nil_append]
      rw [skipWs_of_not_ws _ _ (by decide)]
      simp [parseScalar, expectWord]

/-- A rendered member followed by something that is not a digit is read back
as the field name and the JSON value of the row value. -/
theorem parseMember_render (f : SchemaField) (v : Value) (text : List Char)
    (htext : renderMember f v = some text) (c : Char) (rest : List Char)
    (hc : digitVal c = none) :
    (∃ t, text = '"' :: t) ∧
      parseMember (text ++ c :: rest) = some ((f.FieldName, v.toJson), c :: rest) := by
  unfold renderMember at htext
  cases hs : renderScalar f.FieldType v with
  | none => rw [hs] at htext; simp at htext
  | some scalar =>
    rw [hs] at htext
    simp only [Option.some.injEq] at htext
    subst htext
    refine ⟨⟨_, rfl⟩, ?_⟩
    simp only [parseMember, List.append_assoc, parseString_quote, List.cons_append]
    rw [skipWs_of_not_ws _ _ (by decide)]
    simp only [expect, if_true, parseScalar_render _ v scalar hs c rest hc]

/-- Texts separated by commas: the first text, then each further text after a
comma. -/
theorem joinComma_cons (x : List Char) (xs : List (List Char)) :
    joinComma (x :: xs) = x ++ xs.flatMap (fun y => ',' :: y) := by
  induction xs generalizing x with
  | nil => simp [joinComma]
  | cons y ys ih => simp [joinComma, ih y]

/-- What follows an element of a comma-separated sequence, up to and including
the closing character `close`, starts with a comma or with `close`. -/
theorem tail_head (xs : List (List Char)) (close : Char) (rest : List Char)
    (hclose : digitVal close = none) :
    ∃ c r, xs.flatMap (fun y => ',' :: y) ++ close :: rest = c :: r ∧ digitVal c = none := by
  cases xs with
  | nil => exact ⟨close, rest, by simp, hclose⟩
  | cons y ys =>
    exact ⟨',', y ++ (ys.flatMap (fun y => ',' :: y) ++ close :: rest), by simp, by decide⟩

/-- There are fewer elements in a comma-separated sequence than characters in
its text. -/
theorem tail_length (xs : List (List Char)) (close : Char) (rest : List Char) :
    xs.length < budget (xs.flatMap (fun y => ',' :: y) ++ close :: rest) := by
  induction xs with
  | nil => simp [budget]
  | cons y ys ih =>
    simp only [budget, List.flatMap_cons, List.length_append, List.length_cons] at ih ⊢
    omega

/-- The members of a row are rendered when the row has the arity of the schema
and each value is of the declared type of its field. -/
theorem renderMembers_typed (schema : List SchemaField) (row : List Value)
    (htyped : List.Forall₂ (fun f v => Value.hasType v f.FieldType = true) schema row) :
    ∃ members, renderMembers schema row = some members := by
  induction htyped with
  | nil => exact ⟨[], rfl⟩
  | @cons f v fs vs hfv _ ih =>
    obtain ⟨ms, hms⟩ := ih
    have hm : ∃ m, renderMember f v = some m := by
      obtain ⟨name, ty, size⟩ := f
      cases v <;> cases ty <;> simp [Value.hasType] at hfv <;>
        simp [renderMember, renderScalar]
    obtain ⟨m, hm⟩ := hm
    exact ⟨m :: ms, by simp [renderMembers, hm, hms]⟩

/-- The members that follow the first one are read back in order. -/
theorem parseMembersTail_render (schema : List SchemaField) :
    ∀ (row : List Value) (members : List (List Char)),
      renderMembers schema row = some members →
      ∀ (fuel : Nat) (rest : List Char), members.length < fuel →
        parseMembersTail fuel (members.flatMap (fun y => ',' :: y) ++ '\x7d' :: rest) =
          some (List.zip (schema.map SchemaField.FieldName) (row.map Value.toJson), rest) := by
  induction schema with
  | nil =>
    intro row members hm fuel rest hf
    cases row with
    | cons v vs => simp [renderMembers] at hm
    | nil =>
      simp only [renderMembers, Option.some.injEq] at hm
      subst hm
      obtain ⟨fuel, rfl⟩ : ∃ k, fuel = k + 1 := ⟨fuel - 1, by simp at hf; omega⟩
      simp [parseMembersTail, skipWs_of_not_ws _ _ (by decide : isWs '\x7d' = false)]
  | cons f fs ih =>
    intro row members hm fuel rest hf
    cases row with
    | nil => simp [renderMembers] at hm
    | cons v vs =>
      rw [renderMembers] at hm
      cases hm1 : renderMember f v with
      | none => rw [hm1] at hm; simp at hm
      | some m =>
        cases hm2 : renderMembers fs vs with
        | none => rw [hm1, hm2] at hm; simp at hm
        | some ms =>
          rw [hm1, hm2] at hm
          simp only [Option.some.injEq] at hm
          subst hm
          obtain ⟨fuel, rfl⟩ : ∃ k, fuel = k + 1 := ⟨fuel - 1, by simp at hf; omega⟩
          have hf2 : ms.length < fuel := by simp at hf; omega
          obtain ⟨c, r, hcr, hc⟩ := tail_head ms '\x7d' rest (by decide)
          obtain ⟨⟨t, ht⟩, hparse⟩ := parseMember_render f v m hm1 c r hc
          have hq : skipWs (m ++ c :: r) = m ++ c :: r := by
            rw [ht, List.cons_append]
            exact skipWs_of_not_ws _ _ (by decide)
          simp only [List.flatMap_cons, List.cons_append, List.append_assoc]
          rw [parseMembersTail, skipWs_of_not_ws _ _ (by decide : isWs ',' = false)]
          simp only [show (',' : Char) ≠ '\x7d' by decide, if_false, if_true]
          rw [hcr, hq, hparse, ← hcr]
          simp only [ih vs ms hm2 fuel rest hf2, List.map_cons, List.zip_cons_cons]

/-- A rendered object is read back as its members: the names of the schema
fields paired, in order, with the JSON values of the row. -/
theorem parseObject_render (schema : List SchemaField) (row : List Value)
    (text : List Char) (htext : renderObject schema row = some text) (rest : List Char) :
    (∃ t, text = '\x7b' :: t) ∧
      parseObject (skipWs (text ++ rest)) =
        some (List.zip (schema.map SchemaField.FieldName) (row.map Value.toJson), rest) := by
  unfold renderObject at htext
  cases hms : renderMembers schema row with
  | none => rw [hms] at htext; simp at htext
  | some members =>
    rw [hms] at htext
    simp only [Option.some.injEq] at htext
    subst htext
    refine ⟨⟨_, rfl⟩, ?_⟩
    simp only [List.cons_append, List.append_assoc, List.singleton_append, List.nil_append]
    rw [skipWs_of_not_ws _ _ (by decide)]
    cases schema with
    | nil =>
      cases row with
      | cons v vs => simp [renderMembers] at hms
      | nil =>
        simp only [renderMembers, Option.some.injEq] at hms
        subst hms
        simp [parseObject, expect, joinComma,
          skipWs_of_not_ws _ _ (by decide : isWs '\x7d' = false)]
    | cons f fs =>
      cases row with
      | nil => simp [renderMembers] at hms
      | cons v vs =>
        rw [renderMembers] at hms
        cases hm1 : renderMember f v with
        | none => rw [hm1] at hms; simp at hms
        | some m =>
          cases hm2 : renderMembers fs vs with
          | none => rw [hm1, hm2] at hms; simp at hms
          | some ms =>
            rw [hm1, hm2] at hms
            simp only [Option.some.injEq] at hms
            subst hms
            obtain ⟨c, r, hcr, hc⟩ := tail_head ms '\x7d' rest (by decide)
            obtain ⟨⟨t, ht⟩, hparse⟩ := parseMember_render f v m hm1 c r hc
            have hlen := tail_length ms '\x7d' rest
            simp only [joinComma_cons, List.append_assoc]
            simp only [parseObject, expect, if_true]
            rw [hcr, ht, List.cons_append, skipWs_of_not_ws _ _ (by decide)]
            simp only [show ('"' : Char) ≠ '\x7d' by decide, if_false]
            rw [← List.cons_append, ← ht, hparse, ← hcr]
            simp only [parseMembersTail_render fs vs ms hm2 _ rest hlen, List.map_cons,
              List.zip_cons_cons]

/-- The objects of the rows are rendered when every row has the arity of the
schema and values of the declared types. -/
theorem renderObjects_typed (schema : List SchemaField) (data : List (List Value))
    (htyped : ∀ row ∈ data,
      List.Forall₂ (fun f v => Value.hasType v f.FieldType = true) schema row) :
    ∃ objects, renderObjects schema data = some objects := by
  induction data with
  | nil => exact ⟨[], rfl⟩
  | cons row rows ih =>
    obtain ⟨os, hos⟩ := ih (fun r hr => htyped r (List.mem_cons_of_mem _ hr))
    obtain ⟨ms, hms⟩ := renderMembers_typed schema row (htyped row (List.mem_cons_self _ _))
    exact ⟨('\x7b' :: (joinComma ms ++ ['\x7d'])) :: os,
      by simp [renderObjects, renderObject, hms, hos]⟩

/-- The objects that follow the first one are read back in order. -/
theorem parseObjectsTail_render (schema : List SchemaField) :
    ∀ (rows : List (List Value)) (objects : List (List Char)),
      renderObjects schema rows = some objects →
      ∀ (fuel : Nat) (rest : List Char), objects.length < fuel →
        parseObjectsTail fuel (objects.flatMap (fun y => ',' :: y) ++ ']' :: rest) =
          some (rows.map (fun row =>
            List.zip (schema.map SchemaField.FieldName) (row.map Value.toJson)), rest) := by
  intro rows
  induction rows with
  | nil =>
    intro objects ho fuel rest hf
    simp only [renderObjects, Option.some.injEq] at ho
    subst ho
    obtain ⟨fuel, rfl⟩ : ∃ k, fuel = k + 1 := ⟨fuel - 1, by simp at hf; omega⟩
    simp [parseObjectsTail, skipWs_of_not_ws _ _ (by decide : isWs ']' = false)]
  | cons row rows ih =>
    intro objects ho fuel rest hf
    rw [renderObjects] at ho
    cases ho1 : renderObject schema row with
    | none => rw [ho1] at ho; simp at ho
    | some o =>
      cases ho2 : renderObjects schema rows with
      | none => rw [ho1, ho2] at ho; simp at ho
      | some os =>
        rw [ho1, ho2] at ho
        simp only [Option.some.injEq] at ho
        subst ho
        obtain ⟨fuel, rfl⟩ : ∃ k, fuel = k + 1 := ⟨fuel - 1, by simp at hf; omega⟩
        have hf2 : os.length < fuel := by simp at hf; omega
        simp only [List.flatMap_cons, List.cons_append, List.append_assoc]
        rw [parseObjectsTail, skipWs_of_not_ws _ _ (by decide : isWs ',' = false)]
        simp only [show (',' : Char) ≠ ']' by decide, if_false, if_true]
        rw [(parseObject_render schema row o ho1 _).2]
        simp only [ih os ho2 fuel rest hf2, List.map_cons]

/-- A rendered table is read back as one object per row, in row order, each
object pairing the names of the schema fields with the JSON values of the
row. -/
theorem parseJSONTable_render (schema : List SchemaField) (data : List (List Value))
    (text : String) (htext : renderTableJSON data schema = some text) :
    parseJSONTable text =
      some (data.map fun row =>
        List.zip (schema.map SchemaField.FieldName) (row.map Value.toJson)) := by
  unfold renderTableJSON at htext
  cases ho : renderObjects schema data with
  | none => rw [ho] at htext; simp at htext
  | some objects =>
    rw [ho] at htext
    simp only [Option.some.injEq] at htext
    subst htext
    simp only [parseJSONTable]
    rw [skipWs_of_not_ws _ _ (by decide)]
    cases data with
    | nil =>
      simp only [renderObjects, Option.some.injEq] at ho
      subst ho
      have hws : isWs ']' = false := by decide
      simp [parseArray, expect, joinComma, skipWs, hws]
    | cons row rows =>
      rw [renderObjects] at ho
      cases ho1 : renderObject schema row with
      | none => rw [ho1] at ho; simp at ho
      | some o =>
        cases ho2 : renderObjects schema rows with
        | none => rw [ho1, ho2] at ho; simp at ho
        | some os =>
          rw [ho1, ho2] at ho
          simp only [Option.some.injEq] at ho
          subst ho
          have hlen := tail_length os ']' []
          obtain ⟨⟨t, ht⟩, hobj⟩ := parseObject_render schema row o ho1
            (os.flatMap (fun y => ',' :: y) ++ [']'])
          have hskip : skipWs (o ++ (os.flatMap (fun y => ',' :: y) ++ [']'])) =
              o ++ (os.flatMap (fun y => ',' :: y) ++ [']']) := by
            rw [ht, List.cons_append]
            exact skipWs_of_not_ws _ _ (by decide)
          rw [hskip] at hobj
          simp only [joinComma_cons, List.append_assoc]
          simp only [parseArray, expect, if_true]
          rw [hskip]
          rw [ht, List.cons_append] at hobj ⊢
          simp only [show ('\x7b' : Char) ≠ ']' by decide, if_false, hobj]
          simp only [parseObjectsTail_render schema rows os ho2 _ [] hlen, skipWs, if_true,
            List.map_cons]

/-- The elements at one position of two lists are a pair of their zip. -/
theorem mem_zip_of_getElem? {α β : Type} :
    ∀ (l₁ : List α) (l₂ : List β) (i : Nat) (a : α) (b : β),
      l₁[i]? = some a → l₂[i]? = some b → (a, b) ∈ List.zip l₁ l₂ := by
  intro l₁
  induction l₁ with
  | nil => intro l₂ i a b h1; simp at h1
  | cons x xs ih =>
    intro l₂ i a b h1 h2
    cases l₂ with
    | nil => simp at h2
    | cons y ys =>
      cases i with
      | zero =>
        simp only [List.getElem?_cons_zero, Option.some.injEq] at h1 h2
        subst h1 h2
        simp
      | succ i =>
        simp only [List.getElem?_cons_succ] at h1 h2
        exact List.mem_cons_of_mem _ (ih ys i a b h1 h2)

/-- A row of the arity of the schema whose values are, position by position,
of the declared types. -/
theorem forall₂_typed (schema : List SchemaField) :
    ∀ (row : List Value), row.length = schema.length →
      (∀ p ∈ List.zip schema row, Value.hasType p.2 p.1.FieldType = true) →
      List.Forall₂ (fun f v => Value.hasType v f.FieldType = true) schema row := by
  induction schema with
  | nil =>
    intro row hlen _
    cases row with
    | nil => exact List.Forall₂.nil
    | cons v vs => simp at hlen
  | cons f fs ih =>
    intro row hlen htyped
    cases row with
    | nil => simp at hlen
    | cons v vs =>
      refine List.Forall₂.cons (htyped (f, v) (by simp)) (ih vs (by simpa using hlen) ?_)
      intro p hp
      exact htyped p (by simp [hp])

/-- The member at position `i` of an object with the names of the schema as
keys and the JSON values of the row as values. -/
theorem member_at (schema : List SchemaField) (row : List Value)
    (object : List (String × JsonScalar))
    (hkeys : object.map Prod.fst = schema.map SchemaField.FieldName)
    (hvalues : object.map Prod.snd = row.map Value.toJson)
    (i : Nat) (f : SchemaField) (v : Value) (hf : schema[i]? = some f)
    (hv : row[i]? = some v) :
    object[i]? = some (f.FieldName, v.toJson) := by
  have h1 : (object.map Prod.fst)[i]? = some f.FieldName := by
    rw [hkeys, List.getElem?_map, hf]; rfl
  have h2 : (object.map Prod.snd)[i]? = some v.toJson := by
    rw [hvalues, List.getElem?_map, hv]; rfl
  rw [List.getElem?_map] at h1 h2
  cases hobj : object[i]? with
  | none => rw [hobj] at h1; simp at h1
  | some p =>
    rw [hobj] at h1 h2
    simp only [Option.map_some', Option.some.injEq] at h1 h2
    obtain ⟨a, b⟩ := p
    simp only at h1 h2
    rw [h1, h2]

/-- A text in which a number has a leading zero is not read. -/
theorem parseJSONTable_leading_zero :
    parseJSONTable "[\x7b\"ID\":007\x7d]" = none ∧
      parseJSONTable "[\x7b\"ID\":-07\x7d]" = none ∧
      parseJSONTable "[\x7b\"ID\":7\x7d]" = some [[("ID", .num 7)]] := by
  decide

/-- C10: for every schema and every list of rows of the schema's arity whose
values are of the declared types of their fields, the `json` encoding yields a
text, and this text parses as a JSON array with one object per row, in row
order; the keys of each object are the schema field names, in schema order,
and its values are the values of the row under the declared types: at every
position the member has the name of the field, and its value is the number n
where the field is declared an integer and the row holds n, the string t where
the field is declared a string and the row holds t, the boolean b where the
field is declared a boolean and the row holds b. For the variable list of the
test, one variable named `test`, the first object has `ID` equal to 0 and
`NAME` equal to `test`. -/
theorem json_roundtrip (schema : List SchemaField) (data : List (List Value))
    (harity : ∀ row ∈ data, row.length = schema.length)
    (htyped : ∀ row ∈ data, ∀ p ∈ List.zip schema row,
      Value.hasType p.2 p.1.FieldType = true) :
    (∃ text objects, renderTableJSON data schema = some text ∧
        parseJSONTable text = some objects ∧
        List.Forall₂ (fun object row =>
          object.map Prod.fst = schema.map SchemaField.FieldName ∧
            object.map Prod.snd = row.map Value.toJson ∧
            ∀ (i : Nat) (f : SchemaField) (v : Value),
              schema[i]? = some f → row[i]? = some v →
              ∃ value, object[i]? = some (f.FieldName, value) ∧
                (f.FieldType = TypeInt → ∃ n, v = .int n ∧ value = .num n) ∧
                (f.FieldType = TypeString → ∃ t, v = .str t ∧ value = .str t) ∧
                (f.FieldType = TypeBool → ∃ b, v = .bool b ∧ value = .bool b))
          objects data) ∧
      ∃ text first others,
        variablesListJSON [⟨0, "test"⟩] = some text ∧
          parseJSONTable text = some (first :: others) ∧
          first.lookup "ID" = some (.num 0) ∧ first.lookup "NAME" = some (.str "test") := by
  refine ⟨?_, ?_⟩
  · obtain ⟨objects, hobjects⟩ := renderObjects_typed schema data
      (fun row hrow => forall₂_typed schema row (harity row hrow) (htyped row hrow))
    have htext : renderTableJSON data schema =
        some ⟨'[' :: (joinComma objects ++ [']'])⟩ := by
      simp [renderTableJSON, hobjects]
    refine ⟨_, _, htext, parseJSONTable_render schema data _ htext, ?_⟩
    rw [List.forall₂_map_left_iff, List.forall₂_same]
    intro row hrow
    have hlen : (schema.map SchemaField.FieldName).length = (row.map Value.toJson).length := by
      simp [harity row hrow]
    have hkeys : (List.zip (schema.map SchemaField.FieldName) (row.map Value.toJson)).map
        Prod.fst = schema.map SchemaField.FieldName := by
      rw [← List.unzip_fst, List.unzip_zip hlen]
    have hvalues : (List.zip (schema.map SchemaField.FieldName) (row.map Value.toJson)).map
        Prod.snd = row.map Value.toJson := by
      rw [← List.unzip_snd, List.unzip_zip hlen]
    refine ⟨hkeys, hvalues, ?_⟩
    intro i f v hf hv
    have hfv : Value.hasType v f.FieldType = true :=
      htyped row hrow (f, v) (mem_zip_of_getElem? schema row i f v hf hv)
    refine ⟨v.toJson, member_at schema row _ hkeys hvalues i f v hf hv, ?_, ?_, ?_⟩
    · intro hty
      rw [hty] at hfv
      cases v <;> simp [Value.hasType, Value.toJson] at hfv ⊢
    · intro hty
      rw [hty] at hfv
      cases v <;> simp [Value.hasType, Value.toJson] at hfv ⊢
    · intro hty
      rw [hty] at hfv
      cases v <;> simp [Value.hasType, Value.toJson] at hfv ⊢
  · have htext : variablesListJSON [⟨0, "test"⟩] =
        some "[\x7b\"ID\":0,\"NAME\":\"test\"\x7d]" := by decide
    exact ⟨_, _, [], htext, parseJSONTable_render _ _ _ htext, by decide, by decide⟩

/-- Witness of C10: the schema `[ID:int, NAME:string]` and the two rows
`[0, "test"]` and `[-7, "say \"hi\""]`. -/
theorem json_roundtrip_witness :
    (∃ text objects,
        renderTableJSON [[.int 0, .str "test"], [.int (-7), .str "say \"hi\""]]
          [⟨"ID", TypeInt, 6⟩, ⟨"NAME", TypeString, 20⟩] = some text ∧
        parseJSONTable text = some objects ∧
        List.Forall₂ (fun object row =>
          object.map Prod.fst =
              ([⟨"ID", TypeInt, 6⟩, ⟨"NAME", TypeString, 20⟩] : List SchemaField).map
                SchemaField.FieldName ∧
            object.map Prod.snd = row.map Value.toJson ∧
            ∀ (i : Nat) (f : SchemaField) (v : Value),
              ([⟨"ID", TypeInt, 6⟩, ⟨"NAME", TypeString, 20⟩] : List SchemaField)[i]? = some f →
              row[i]? = some v →
              ∃ value, object[i]? = some (f.FieldName, value) ∧
                (f.FieldType = TypeInt → ∃ n, v = .int n ∧ value = .num n) ∧
                (f.FieldType = TypeString → ∃ t, v = .str t ∧ value = .str t) ∧
                (f.FieldType = TypeBool → ∃ b, v = .bool b ∧ value = .bool b))
          objects [[.int 0, .str "test"], [.int (-7), .str "say \"hi\""]]) ∧
      ∃ text first others,
        variablesListJSON [⟨0, "test"⟩] = some text ∧
          parseJSONTable text = some (first :: others) ∧
          first.lookup "ID" = some (.num 0) ∧ first.lookup "NAME" = some (.str "test") :=
  json_roundtrip [⟨"ID", TypeInt, 6⟩, ⟨"NAME", TypeString, 20⟩]
    [[.int 0, .str "test"], [.int (-7), .str "say \"hi\""]] (by decide) (by decide)

end MetalCloud
